import Mathlib

/-!
# Verification of the gti-cli typing-practice core

Shallow embedding of the gti-cli repository's session engine, challenge state
machine, level generator and statistics engine, translated from the Go source:

* `src/internal/session/results.go` — WPM/accuracy calculators
* `src/internal/session/session.go` — live session state, input handling, timer
* `src/internal/challenge/game.go` — challenge-mode state machine
* `src/internal/challenge/levels.go` — built-in level generation
* `src/cmd/statistics.go` and the TUI statistics file — statistics engine

Modelling conventions: Go `int`/`int64` values are modelled as `ℤ` (so that
claimed non-negativity is a real statement), Go `float64` as `ℚ` (the source
only relies on exact small-denominator arithmetic; no claim hinges on binary
rounding), Go `time.Duration` as a rational number of nanoseconds, and Go
strings that are typed character-by-character as `List Char`.
-/

namespace GTI

/-- Nanoseconds per minute: `time.Duration.Minutes` divides by this. -/
def nsPerMinute : ℚ := 60000000000

/-- `time.Duration.Minutes()`: duration (ns) to minutes. -/
def minutesOf (d : ℚ) : ℚ := d / nsPerMinute

/-- `time.Duration.Milliseconds()`: integer division of nanoseconds by 10^6.
The sessions only produce whole-millisecond-representable durations in the
claims we evaluate, so we keep the rational value divided exactly. -/
def millisecondsOf (d : ℚ) : ℚ := d / 1000000

/-- `CalculateWPM` (results.go): `(totalChars / 5) / elapsedMinutes`, 0 if the
duration is non-positive. -/
def CalculateWPM (totalChars : ℤ) (duration : ℚ) : ℚ :=
  if duration ≤ 0 then 0
  else ((totalChars : ℚ) / 5) / minutesOf duration

/-- `CalculateNetWPM` (results.go): like `CalculateWPM` but `totalChars` is
penalized by `uncorrectedErrors * 5`, floored at 0. -/
def CalculateNetWPM (totalChars uncorrectedErrors : ℤ) (duration : ℚ) : ℚ :=
  if duration ≤ 0 then 0
  else
    let penalizedChars : ℚ := ((totalChars - uncorrectedErrors * 5 : ℤ) : ℚ)
    let penalizedChars := if penalizedChars < 0 then 0 else penalizedChars
    (penalizedChars / 5) / minutesOf duration

/-- `CalculateAdjustedWPM` (results.go): `correctChars / avgWordLength` words
over elapsed minutes; 0 if the duration or the average word length is
non-positive. -/
def CalculateAdjustedWPM (correctChars : ℤ) (avgWordLength : ℚ) (duration : ℚ) : ℚ :=
  if duration ≤ 0 ∨ avgWordLength ≤ 0 then 0
  else ((correctChars : ℚ) / avgWordLength) / minutesOf duration

/-- `CalculateAccuracy` (results.go): `(totalChars - mistakes) / totalChars * 100`,
100 when `totalChars == 0`. -/
def CalculateAccuracy (totalChars mistakes : ℤ) : ℚ :=
  if totalChars = 0 then 100
  else ((totalChars - mistakes : ℤ) : ℚ) / (totalChars : ℚ) * 100

/-! ## Challenge level generation (`src/internal/challenge/levels.go`) -/

/-- `ChallengeLevel` (levels.go). The `Name` field (pure presentation, built by
`generateLevelName`) is not referenced by any claim and is omitted. -/
structure ChallengeLevel where
  TimeSeconds : ℤ
  MinAccuracy : ℚ
  MaxMistakes : ℤ
  MinChars : ℤ
  MinWords : ℤ
  IsBoss : Bool
  deriving Repr, DecidableEq, Inhabited

/-- `DifficultyTier` (levels.go), minus the presentation-only name fields. -/
structure DifficultyTier where
  StartLevel : ℤ
  EndLevel : ℤ
  BaseAccuracy : ℚ
  TimeBase : ℤ
  CharBase : ℤ
  MistakeBase : ℤ
  deriving Repr, DecidableEq

/-- `difficultyTiers` (levels.go): six tiers spanning levels 1–100. -/
def difficultyTiers : List DifficultyTier :=
  [ { StartLevel := 1,  EndLevel := 10,  BaseAccuracy := 90,
      TimeBase := 30, CharBase := 15,  MistakeBase := 100 },
    { StartLevel := 11, EndLevel := 25,  BaseAccuracy := 92,
      TimeBase := 35, CharBase := 50,  MistakeBase := 50 },
    { StartLevel := 26, EndLevel := 50,  BaseAccuracy := 94,
      TimeBase := 40, CharBase := 100, MistakeBase := 25 },
    { StartLevel := 51, EndLevel := 75,  BaseAccuracy := 96,
      TimeBase := 45, CharBase := 200, MistakeBase := 15 },
    { StartLevel := 76, EndLevel := 95,  BaseAccuracy := 97 + 1/2,
      TimeBase := 50, CharBase := 300, MistakeBase := 8 },
    { StartLevel := 96, EndLevel := 100, BaseAccuracy := 98 + 1/2,
      TimeBase := 60, CharBase := 400, MistakeBase := 3 } ]

/-- `math.Round(q*10)/10` for the non-negative accuracies produced by the level
generator (round half away from zero coincides with `⌊x + 1/2⌋` there). -/
def roundTenth (q : ℚ) : ℚ := ((⌊q * 10 + 1/2⌋ : ℤ) : ℚ) / 10

/-- The quadratic in-tier progress `float64(i) / float64(levelsInTier-1)` of
the `GetBuiltInLevels` inner loop (levels.go, line 136). -/
def levelProgress (tier : DifficultyTier) (i : ℕ) : ℚ :=
  (i : ℚ) / (((tier.EndLevel - tier.StartLevel + 1 : ℤ) : ℚ) - 1)

/-- 1-based level number of the i-th level of a tier. -/
def levelNum (tier : DifficultyTier) (i : ℕ) : ℤ := tier.StartLevel + i

/-- Accuracy threshold before rounding (levels.go, lines 139, 145–147,
159–160): quadratic increase, clamped at 85, overridden to 99.5 at level
100. Each Go reassignment of `accuracy` appears as one nested conditional. -/
def levelAccuracy (tier : DifficultyTier) (i : ℕ) : ℚ :=
  let accuracy := tier.BaseAccuracy + levelProgress tier i * levelProgress tier i * 4
  let accuracy := if accuracy < 85 then (85 : ℚ) else accuracy
  if levelNum tier i = 100 then (99 + 1/2 : ℚ) else accuracy

/-- Time budget (levels.go, lines 140, 148–150, 161): `int(x)` truncation is
`Int.floor` on these positive operands. -/
def levelTime (tier : DifficultyTier) (i : ℕ) : ℤ :=
  let timeSeconds := tier.TimeBase + ⌊levelProgress tier i * levelProgress tier i * 15⌋
  let timeSeconds := if timeSeconds < 20 then (20 : ℤ) else timeSeconds
  if levelNum tier i = 100 then 120 else timeSeconds

/-- Character requirement (levels.go, lines 141, 151–153, 162). -/
def levelChars (tier : DifficultyTier) (i : ℕ) : ℤ :=
  let charCount := tier.CharBase + ⌊levelProgress tier i * levelProgress tier i * 200⌋
  let charCount := if charCount < 10 then (10 : ℤ) else charCount
  if levelNum tier i = 100 then 2000 else charCount

/-- Mistake budget (levels.go, lines 142, 154–156, 163). -/
def levelMistakes (tier : DifficultyTier) (i : ℕ) : ℤ :=
  let maxMistakes :=
    ⌊(tier.MistakeBase : ℚ) * (1 - levelProgress tier i * levelProgress tier i * (8/10))⌋
  let maxMistakes := if maxMistakes < 1 then (1 : ℤ) else maxMistakes
  if levelNum tier i = 100 then 5 else maxMistakes

/-- One iteration of the `GetBuiltInLevels` inner loop (levels.go, lines
131–180): the interpolated thresholds, `MinAccuracy` rounded to one decimal,
boss flag every 5th level and at level 100, and the `MinWords` estimate
`math.Ceil(charCount / 5.5)`. -/
def mkLevel (tier : DifficultyTier) (i : ℕ) : ChallengeLevel :=
  { TimeSeconds := levelTime tier i
    MinAccuracy := roundTenth (levelAccuracy tier i)
    MaxMistakes := levelMistakes tier i
    MinChars := levelChars tier i
    MinWords := ⌈(levelChars tier i : ℚ) / (11/2)⌉
    IsBoss := (i + 1) % 5 = 0 ∨ levelNum tier i = 100 }

/-- `GetBuiltInLevels` (levels.go): per tier, one level for each index in the
tier's range. -/
def GetBuiltInLevels : List ChallengeLevel :=
  (difficultyTiers.map fun tier =>
    (List.range (tier.EndLevel - tier.StartLevel + 1).toNat).map (mkLevel tier)).flatten

/-! ## The live session (`src/internal/session/session.go`) -/

/-- A keystroke delivered to `Session.HandleInput`: either a single printable
character (the source's `len(key.String()) == 1` filter) or backspace. -/
inductive KeyEvent where
  | char (c : Char)
  | backspace
  deriving Repr, DecidableEq

/-- The word/text generator (`internal.GenerateWordsDynamic`) is an excluded
collaborator (spec §6 TextSource); we model it as an oracle handing out the
n-th freshly generated chunk. -/
structure Env where
  gen : ℕ → List Char

/-- The mutable `Session` (session.go, lines 151–190). Rendering/TTS/config
fields that no claim touches are omitted. Counters are `ℤ` because the Go
fields are signed ints; durations are `ℤ` nanoseconds (`time.Duration` is an
`int64` nanosecond count). `genIdx` is model bookkeeping: the session's
position in the generator oracle's stream, not a Go field. -/
structure Session where
  mode : String := ""
  tier : String := ""
  text : List Char := []
  author : String := ""
  userInput : List Char := []
  position : ℤ := 0
  mistakes : ℤ := 0
  totalChars : ℤ := 0
  totalMistakes : ℤ := 0
  totalChunks : ℤ := 0
  maxChunks : ℤ := 0
  allChunks : List (List Char) := []
  chunkIndex : ℤ := 0
  isGroupMode : Bool := false
  pageSize : ℤ := 0
  currentPageChunks : ℤ := 0
  durationNs : ℤ := 0
  timeLimitNs : ℤ := 0
  running : Bool := false
  completed : Bool := false
  backspaceCount : ℤ := 0
  correctedErrors : ℤ := 0
  uncorrectedErrors : ℤ := 0
  correctChars : ℤ := 0
  avgWordLength : ℚ := 0
  genIdx : ℕ := 0

/-- `Session.CalculateWPM` (session.go, 1341): live WPM over
`totalChars + len(userInput)`. -/
def Session.calculateWPM (s : Session) : ℚ :=
  if s.durationNs = 0 then 0
  else (((s.totalChars + s.userInput.length : ℤ) : ℚ) / 5) / minutesOf (s.durationNs : ℚ)

/-- `Session.CalculateCPM` (session.go, 1351). -/
def Session.calculateCPM (s : Session) : ℚ :=
  if s.durationNs = 0 then 0
  else ((s.totalChars + s.userInput.length : ℤ) : ℚ) / minutesOf (s.durationNs : ℚ)

/-- `Session.CalculateAccuracy` (session.go, 1359): accuracy over the session
totals plus the in-flight chunk. -/
def Session.calculateAccuracy (s : Session) : ℚ :=
  let totalChars := s.totalChars + s.userInput.length
  let totalMistakes := s.totalMistakes + s.mistakes
  if totalChars = 0 then 100
  else ((totalChars - totalMistakes : ℤ) : ℚ) / (totalChars : ℚ) * 100

/-- The keystroke switch of `HandleInput` (session.go, lines 556–591): the
backspace branch and the single-character append branch, before any
chunk-boundary dispatch. -/
def applyKey (s : Session) (k : KeyEvent) : Session :=
  match k with
  | .backspace =>
    if 0 < s.userInput.length then
      let removedChar := s.userInput.getLastD ' '
      let s := { s with backspaceCount := s.backspaceCount + 1,
                        userInput := s.userInput.dropLast }
      if 0 < s.position then
        let s := { s with position := s.position - 1 }
        if removedChar ≠ s.text.getD s.position.toNat ' ' then
          { s with correctedErrors := s.correctedErrors + 1,
                   uncorrectedErrors := s.uncorrectedErrors - 1 }
        else s
      else s
    else s
  | .char c =>
    let s := { s with userInput := s.userInput ++ [c] }
    let s :=
      if s.position < (s.text.length : ℤ) then
        if c = s.text.getD s.position.toNat ' ' then
          { s with correctChars := s.correctChars + 1 }
        else
          { s with mistakes := s.mistakes + 1,
                   uncorrectedErrors := s.uncorrectedErrors + 1 }
      else s
    { s with position := s.position + 1 }

/-- Chunk regeneration common to the continuous and practice boundaries:
fresh generated text, cursor and per-chunk state reset. -/
def regenChunk (env : Env) (s : Session) : Session :=
  { s with text := env.gen s.genIdx, genIdx := s.genIdx + 1,
           position := 0, userInput := [], mistakes := 0 }

/-- First boundary block of `HandleInput` (session.go, lines 593–602):
timed / words / unlimited practice fold the chunk into the totals and
regenerate, never terminating. -/
def continuousBoundary (env : Env) (s : Session) : Session :=
  if (s.mode = "timed" ∨ s.mode = "words" ∨ (s.mode = "practice" ∧ s.maxChunks = 0))
      ∧ (s.text.length : ℤ) ≤ s.position then
    regenChunk env
      { s with totalChars := s.totalChars + s.userInput.length,
               totalMistakes := s.totalMistakes + s.mistakes }
  else s

/-- Third and fourth boundary blocks of `HandleInput` (session.go, lines
682–758): custom and quotes advance `chunkIndex` through the pre-loaded
chunk list and terminate at its end. -/
def chunkListBoundary (theMode : String) (elapsedNs : ℤ) (s : Session) : Session :=
  if s.mode = theMode ∧ (s.text.length : ℤ) ≤ s.position then
    let s := { s with chunkIndex := s.chunkIndex + 1,
                      totalChars := s.totalChars + s.userInput.length,
                      totalMistakes := s.totalMistakes + s.mistakes }
    if (s.allChunks.length : ℤ) ≤ s.chunkIndex then
      { s with completed := true, running := false, durationNs := elapsedNs }
    else
      { s with text := s.allChunks.getD s.chunkIndex.toNat [],
               position := 0, userInput := [], mistakes := 0 }
  else s

/-- Final boundary block of `HandleInput` (session.go, lines 760–790): every
remaining mode (quote, challenge, code, custom-timed, …) completes once the
single text is fully typed. -/
def defaultBoundary (elapsedNs : ℤ) (s : Session) : Session :=
  if s.mode ≠ "timed" ∧ s.mode ≠ "words" ∧ s.mode ≠ "custom" ∧ s.mode ≠ "quotes"
      ∧ (s.text.length : ℤ) ≤ s.position then
    { s with completed := true, running := false, durationNs := elapsedNs,
             totalChars := s.totalChars + s.userInput.length,
             totalMistakes := s.totalMistakes + s.mistakes }
  else s

/-- The custom, quotes and default boundary blocks in source order. The Go
completion branches inside the custom/quotes blocks `return` early; chaining
is nevertheless faithful because a custom/quotes completion leaves `mode`
equal to "custom"/"quotes", which every later block's condition excludes. -/
def lateBoundaries (elapsedNs : ℤ) (s : Session) : Session :=
  defaultBoundary elapsedNs
    (chunkListBoundary "quotes" elapsedNs (chunkListBoundary "custom" elapsedNs s))

/-- `Session.HandleInput` (session.go, lines 551–793): guard on
`running && !completed`, the keystroke switch, then the sequential
chunk-boundary blocks; `elapsedNs` stands for `time.Since(s.startTime)` at
the moments the source reads the clock. The practice block (lines 604–680)
is inlined because its completion branches `return` early — a completed
practice session must not reach the later blocks — while its regeneration
branches fall through to them, exactly as in the source. (Record emission at
completion is modelled separately via `mkTimerRecord`; no claim depends on
the records this path writes.) -/
def handleInput (env : Env) (elapsedNs : ℤ) (s : Session) (k : KeyEvent) : Session :=
  if ¬ s.running ∨ s.completed then s
  else
    let s := applyKey s k
    let s := continuousBoundary env s
    if s.mode = "practice" ∧ 0 < s.maxChunks ∧ (s.text.length : ℤ) ≤ s.position then
      if s.isGroupMode then
        let s := { s with totalChars := s.totalChars + s.userInput.length,
                          totalMistakes := s.totalMistakes + s.mistakes,
                          totalChunks := s.totalChunks + s.currentPageChunks }
        if s.maxChunks ≤ s.totalChunks then
          { s with completed := true, running := false, durationNs := elapsedNs,
                   mistakes := 0 }
        else
          lateBoundaries elapsedNs
            (regenChunk env
              { s with
                  currentPageChunks := min s.pageSize (s.maxChunks - s.totalChunks) })
      else
        let s := { s with totalChunks := s.totalChunks + 1,
                          totalChars := s.totalChars + s.userInput.length,
                          totalMistakes := s.totalMistakes + s.mistakes }
        if s.maxChunks ≤ s.totalChunks then
          { s with completed := true, running := false, durationNs := elapsedNs }
        else
          lateBoundaries elapsedNs (regenChunk env s)
    else
      lateBoundaries elapsedNs s

/-! ## Records and the timer (`session.go UpdateTimer`, `SaveSessionRecord`) -/

/-- The persisted `SessionRecord`. Its Go struct definition lives in the
session package's records file (not included under `src/`); the fields are
read off the composite literals at every emission site. `Timestamp` is kept
as a calendar-day number, the only aspect the statistics engine consumes. -/
structure SessionRecord where
  Mode : String := ""
  Tier : String := ""
  TextLength : ℤ := 0
  DurationMs : ℤ := 0
  WPM : ℚ := 0
  CPM : ℚ := 0
  Accuracy : ℚ := 0
  Mistakes : ℤ := 0
  NetWPM : ℚ := 0
  AdjustedWPM : ℚ := 0
  CorrectedErrors : ℤ := 0
  UncorrectedErrors : ℤ := 0
  BackspaceCount : ℤ := 0
  AvgWordLength : ℚ := 0
  QuoteAuthor : String := ""
  TimestampDay : ℤ := 0
  deriving Inhabited

/-- The record literal built at the timer-expiry emission site
(session.go, lines 839–855): totals plus the in-flight chunk.
`time.Duration.Milliseconds()` is the int64 division `ns / 10^6`. -/
def mkTimerRecord (s : Session) (mistakes : ℤ) : SessionRecord :=
  { Mode := s.mode
    Tier := s.tier
    TextLength := s.text.length
    DurationMs := s.durationNs / 1000000
    WPM := s.calculateWPM
    CPM := s.calculateCPM
    Accuracy := s.calculateAccuracy
    Mistakes := mistakes
    QuoteAuthor := s.author
    NetWPM := CalculateNetWPM (s.totalChars + s.userInput.length) s.uncorrectedErrors
      (s.durationNs : ℚ)
    AdjustedWPM := CalculateAdjustedWPM s.correctChars s.avgWordLength (s.durationNs : ℚ)
    CorrectedErrors := s.correctedErrors
    UncorrectedErrors := s.uncorrectedErrors
    BackspaceCount := s.backspaceCount
    AvgWordLength := s.avgWordLength }

/-- `Session.UpdateTimer` (session.go, lines 823–864): recompute the duration
from the clock; on expiry force completion, clamp the duration to the limit,
emit exactly one record (whose mistakes field depends on the mode) and reset
the per-chunk mistake counter. Returns the updated session and the emitted
record, if any. -/
def updateTimer (elapsedNs : ℤ) (s : Session) : Session × Option SessionRecord :=
  if s.running then
    let s := { s with durationNs := elapsedNs }
    if 0 < s.timeLimitNs ∧ s.timeLimitNs ≤ s.durationNs then
      let s := { s with completed := true, running := false,
                        durationNs := s.timeLimitNs }
      let mistakes :=
        if s.mode = "timed" ∨ s.mode = "words" ∨ s.mode = "practice" then
          s.totalMistakes + s.mistakes
        else if s.mode = "challenge" then s.totalMistakes
        else s.mistakes
      let record := mkTimerRecord s mistakes
      ({ s with mistakes := 0 }, some record)
    else (s, none)
  else (s, none)

/-! ## Event traces -/

/-- One event of the cooperative event loop: a keystroke (with the wall-clock
elapsed time the handler would read) or a timer tick. -/
inductive Event where
  | key (k : KeyEvent) (elapsedNs : ℤ)
  | tick (elapsedNs : ℤ)
  deriving Repr

/-- One step of the session under an event. -/
def step (env : Env) (s : Session) (e : Event) : Session :=
  match e with
  | .key k elapsedNs => handleInput env elapsedNs s k
  | .tick elapsedNs => (updateTimer elapsedNs s).1

/-- Processing a whole event trace in order. -/
def run (env : Env) (s : Session) (es : List Event) : Session :=
  es.foldl (step env) s

/-! ## Challenge state machine (`src/internal/challenge/game.go`) -/

/-- `BossRound` (game.go). The presentation-only `Name` is omitted. -/
structure BossRound where
  Words : ℤ
  TimeLimit : ℤ
  TriggerChunk : ℤ := 0
  deriving Repr, DecidableEq

/-- `Level` (game.go), minus the name/difficulty/message strings. -/
structure Level where
  Time : ℤ
  ChunkSize : ℤ
  BossRound : Option BossRound
  IsBoss : Bool
  MinAccuracy : ℚ
  MaxMistakes : ℤ
  MinChars : ℤ
  MinWords : ℤ
  deriving Repr, DecidableEq

/-- `BossResult` (game.go): we keep the `Completed` flag; the stored
name/WPM/accuracy snapshots are presentation only. -/
structure BossResult where
  Completed : Bool
  deriving Repr, DecidableEq

/-- The per-level slice of `GameState` (game.go, lines 45–55). -/
structure GameState where
  Phase : String := "normal"
  ChunkIndex : ℤ := 0
  TimeLeft : ℤ := 0
  WordsTyped : ℤ := 0
  Mistakes : ℤ := 0
  TotalChars : ℤ := 0
  BossResults : List BossResult := []
  deriving Repr, DecidableEq

/-- `GameModel.calculateAccuracy` (game.go, 386): delegates to
`session.CalculateAccuracy` on the level totals. -/
def GameState.calculateAccuracy (st : GameState) : ℚ :=
  CalculateAccuracy st.TotalChars st.Mistakes

/-- `checkLevelRequirements` (game.go, lines 432–440): all four thresholds
must hold simultaneously. -/
def checkLevelRequirements (st : GameState) (level : Level) : Bool :=
  level.MinAccuracy ≤ st.calculateAccuracy ∧
  st.Mistakes ≤ level.MaxMistakes ∧
  level.MinChars ≤ st.TotalChars ∧
  level.MinWords ≤ st.WordsTyped

/-- `handleTick` (game.go, lines 325–345): decrement the countdown; at zero,
a level with a boss round goes straight to `complete` (recording a failed
boss result), any other level is routed through the requirement check. -/
def handleTick (level : Level) (st : GameState) : GameState :=
  let st := { st with TimeLeft := st.TimeLeft - 1 }
  if st.TimeLeft ≤ 0 then
    match level.BossRound with
    | some _ =>
      { st with BossResults := st.BossResults ++ [{ Completed := false }],
                Phase := "complete" }
    | none =>
      if checkLevelRequirements st level then { st with Phase := "complete" }
      else { st with Phase := "failed" }
  else st

/-- `handleSessionComplete` (game.go, lines 282–323): fold the finished
chunk's words/mistakes/chars into the level totals, then route: a hidden boss
phase returns to normal play, a boss level runs the requirement check, any
other level advances to the next chunk. The session-side chunk regeneration
is outside this state. -/
def handleSessionComplete (level : Level)
    (chunkWords chunkMistakes chunkChars : ℤ) (st : GameState) : GameState :=
  let st := { st with WordsTyped := st.WordsTyped + chunkWords,
                      Mistakes := st.Mistakes + chunkMistakes,
                      TotalChars := st.TotalChars + chunkChars }
  if st.Phase = "boss" then
    { st with BossResults := st.BossResults ++ [{ Completed := true }],
              Phase := "normal", ChunkIndex := st.ChunkIndex + 1 }
  else
    match level.BossRound with
    | some _ =>
      if checkLevelRequirements st level then
        { st with BossResults := st.BossResults ++ [{ Completed := true }],
                  Phase := "complete" }
      else { st with Phase := "failed" }
    | none => { st with ChunkIndex := st.ChunkIndex + 1 }

/-! ## Statistics engine (TUI statistics file and `src/cmd/statistics.go`) -/

/-- The derived `Statistics` struct (TUI statistics file). `ConsistencyScore`
and `VariancePercent` are `sqrt(recent variance) / recent mean * 100`; the
square root of a rational is irrational, so the structure stores the radicand
`RecentVariance` (together with `RecentValidAvgWPM` it determines the score,
which is what the consistency theorems are phrased through). -/
structure Statistics where
  TotalSessions : ℤ := 0
  TotalTimeMs : ℤ := 0
  RawAvgWPM : ℚ := 0
  RawPeakWPM : ℚ := 0
  RawAvgAccuracy : ℚ := 0
  RawBestAccuracy : ℚ := 0
  AvgMistakes : ℚ := 0
  BackspaceRate : ℚ := 0
  AvgCorrectedErrors : ℚ := 0
  AvgUncorrectedErrors : ℚ := 0
  ValidSessions : List SessionRecord := []
  NormalizedAvgWPM : ℚ := 0
  NormalizedPeakWPM : ℚ := 0
  NetAvgWPM : ℚ := 0
  NetPeakWPM : ℚ := 0
  AdjustedAvgWPM : ℚ := 0
  AdjustedPeakWPM : ℚ := 0
  RecentValidAvgWPM : ℚ := 0
  RecentValidCountUsed : ℤ := 0
  RecentVariance : ℚ := 0
  ImprovementRate : ℚ := 0
  OutlierCount : ℤ := 0
  CurrentStreak : ℤ := 0
  LongestStreak : ℤ := 0

/-- The validity test of `filterValidSessions`:
`time.Duration(DurationMs) * time.Millisecond >= 15 * time.Second` (in
nanoseconds) and `TextLength >= 60`. -/
def isValidRecord (r : SessionRecord) : Bool :=
  (15000000000 : ℤ) ≤ r.DurationMs * 1000000 ∧ (60 : ℤ) ≤ r.TextLength

/-- `filterValidSessions` (TUI statistics file, lines 996–1005). -/
def filterValidSessions (records : List SessionRecord) : List SessionRecord :=
  records.filter isValidRecord

/-- Running `if v > acc { acc = v }` over a list, starting from 0 — the
peak-tracking pattern of the statistics loops. -/
def peakBy (f : SessionRecord → ℚ) (records : List SessionRecord) : ℚ :=
  records.foldl (fun acc r => if acc < f r then f r else acc) 0

/-- Sum of a field over records. -/
def sumBy (f : SessionRecord → ℚ) (records : List SessionRecord) : ℚ :=
  (records.map f).sum

/-- `calculateBasicStats` (TUI statistics file, lines 961–994): raw
aggregates over all records unconditionally. -/
def calculateBasicStats (records : List SessionRecord) (stats : Statistics) :
    Statistics :=
  let n : ℚ := records.length
  { stats with
    TotalSessions := records.length
    TotalTimeMs := ((records.map SessionRecord.DurationMs).sum)
    RawAvgWPM := sumBy SessionRecord.WPM records / n
    RawAvgAccuracy := sumBy SessionRecord.Accuracy records / n
    AvgMistakes := sumBy (fun r => (r.Mistakes : ℚ)) records / n
    BackspaceRate := sumBy (fun r => (r.BackspaceCount : ℚ)) records / n
    AvgCorrectedErrors := sumBy (fun r => (r.CorrectedErrors : ℚ)) records / n
    AvgUncorrectedErrors := sumBy (fun r => (r.UncorrectedErrors : ℚ)) records / n
    RawPeakWPM := peakBy SessionRecord.WPM records
    RawBestAccuracy := peakBy SessionRecord.Accuracy records }

/-- `calculateNormalizedStats` (TUI statistics file, lines 1007–1033):
mean/peak of WPM, net WPM and adjusted WPM over the valid subset only. -/
def calculateNormalizedStats (valid : List SessionRecord) (stats : Statistics) :
    Statistics :=
  let n : ℚ := valid.length
  { stats with
    NormalizedAvgWPM := sumBy SessionRecord.WPM valid / n
    NormalizedPeakWPM := peakBy SessionRecord.WPM valid
    NetAvgWPM := sumBy SessionRecord.NetWPM valid / n
    NetPeakWPM := peakBy SessionRecord.NetWPM valid
    AdjustedAvgWPM := sumBy SessionRecord.AdjustedWPM valid / n
    AdjustedPeakWPM := peakBy SessionRecord.AdjustedWPM valid }

/-- `calculateRecentPerformance` (TUI statistics file, lines 1035–1059):
mean WPM of the newest `min(5, len)` valid records; with at least 3 of them
and a positive mean, the population variance of the window (whose square
root feeds the consistency score). -/
def calculateRecentPerformance (valid : List SessionRecord) (stats : Statistics) :
    Statistics :=
  let recentN : ℕ := min 5 valid.length
  let recent := valid.take recentN
  let mean := sumBy SessionRecord.WPM recent / (recentN : ℚ)
  let stats := { stats with RecentValidCountUsed := recentN,
                            RecentValidAvgWPM := mean }
  if 3 ≤ recentN ∧ 0 < mean then
    let variance := ((recent.map fun r => (r.WPM - mean) * (r.WPM - mean)).sum) / (recentN : ℚ)
    { stats with RecentVariance := variance }
  else stats

/-- `calculateImprovementRate` (TUI statistics file, lines 1061–1077): with
at least 10 valid records, compare the mean WPM of indices `0..half-1`
against the mean over the mirrored tail `len-1-i`; left at 0 unless the
older mean is positive. -/
def calculateImprovementRate (valid : List SessionRecord) (stats : Statistics) :
    Statistics :=
  if 10 ≤ valid.length then
    let half : ℕ := valid.length / 2
    let newerSum := ((List.range half).map fun i =>
      (valid.getD i default).WPM).sum
    let olderSum := ((List.range half).map fun i =>
      (valid.getD (valid.length - 1 - i) default).WPM).sum
    let newerAvg := newerSum / (half : ℚ)
    let olderAvg := olderSum / (half : ℚ)
    if 0 < olderAvg then
      { stats with ImprovementRate := (newerAvg - olderAvg) / olderAvg * 100 }
    else stats
  else stats

/-- Length of the consecutive-day run in `days` going downward from `d`.
Fuel-bounded recursion; `days` has no duplicates at the call sites, so
`days.length` fuel always suffices. -/
def runLengthFrom (days : List ℤ) : ℤ → ℕ → ℕ
  | _, 0 => 0
  | d, fuel + 1 => if d ∈ days then 1 + runLengthFrom days (d - 1) fuel else 0

/-- Modelled from the spec: `session.CalculateStreaks` is defined in the
session package's records source file, which is not included under `src/`
(only the call sites `session.CalculateStreaks(valid)` appear). Spec §4.4.6:
take the distinct calendar days containing at least one valid session; a
streak is a maximal run of consecutive days; report the run ending today or
yesterday as current and the longest run ever as longest. `today` abstracts
the wall clock's local date. -/
def calculateStreaks (today : ℤ) (valid : List SessionRecord) : ℤ × ℤ :=
  let days := (valid.map SessionRecord.TimestampDay).dedup
  let fuel := days.length
  let current : ℕ :=
    if today ∈ days then runLengthFrom days today fuel
    else if (today - 1) ∈ days then runLengthFrom days (today - 1) fuel
    else 0
  let longest : ℕ := (days.map fun d => runLengthFrom days d fuel).foldl max 0
  (current, longest)

/-- `calculateStatistics` (TUI statistics file, lines 933–959): raw
aggregates, validity filter and outlier count, then the valid-only
normalized/recent/improvement/streak statistics. -/
def calculateStatistics (today : ℤ) (records : List SessionRecord) : Statistics :=
  if records.length = 0 then {} else
  let stats := calculateBasicStats records {}
  let valid := filterValidSessions records
  let stats := { stats with ValidSessions := valid,
                            OutlierCount := (records.length : ℤ) - valid.length }
  if valid.length = 0 then stats else
  let stats := calculateNormalizedStats valid stats
  let stats := calculateRecentPerformance valid stats
  let stats := calculateImprovementRate valid stats
  let streaks := calculateStreaks today valid
  { stats with CurrentStreak := streaks.1, LongestStreak := streaks.2 }

/-! ## Remaining definitions: level wiring, invariants, example data -/

/-- The `ChallengeLevel` → `challenge.Level` wiring of the app package's
`StartChallengeGame`: chunk size 10; a boss level gets a stand-alone boss
round of `MinChars / 5` words (at least 1) with the level's time limit. -/
def toGameLevel (cl : ChallengeLevel) : Level :=
  let words := cl.MinChars / 5
  let words := if words < 1 then 1 else words
  { Time := cl.TimeSeconds
    ChunkSize := 10
    BossRound :=
      if cl.IsBoss then some { Words := words, TimeLimit := cl.TimeSeconds }
      else none
    IsBoss := cl.IsBoss
    MinAccuracy := cl.MinAccuracy
    MaxMistakes := cl.MaxMistakes
    MinChars := cl.MinChars
    MinWords := cl.MinWords }

/-- Number of positions `i` at which `u.get i ≠ t.get i` (only positions
present in both lists are counted; the invariant keeps
`userInput.length ≤ text.length`, so nothing is lost). -/
def mismatches : List Char → List Char → ℕ
  | [], _ => 0
  | _ :: _, [] => 0
  | c :: u, d :: t => (if c = d then 0 else 1) + mismatches u t

/-- The text source never hands out an empty chunk
(`GenerateWordsDynamic` joins one non-empty word per requested count, and
every constructor asks for at least 10 words). -/
def EnvOK (env : Env) : Prop := ∀ i, env.gen i ≠ []

/-- The session invariant preserved by every keystroke and timer event.
`0 ≤ position` follows from `lockstep`. -/
structure Inv (s : Session) : Prop where
  lockstep : (s.userInput.length : ℤ) = s.position
  pos_le : s.position ≤ (s.text.length : ℤ)
  pos_lt : s.running = true → s.completed = false → s.position < (s.text.length : ℤ)
  mist_nonneg : 0 ≤ s.mistakes
  totalMist_nonneg : 0 ≤ s.totalMistakes
  totalChars_nonneg : 0 ≤ s.totalChars
  back_nonneg : 0 ≤ s.backspaceCount
  corr_nonneg : 0 ≤ s.correctedErrors
  unc_ge : (mismatches s.userInput s.text : ℤ) ≤ s.uncorrectedErrors
  chunks_ok : ∀ c ∈ s.allChunks, c ≠ []
  chunkIndex_ge : -1 ≤ s.chunkIndex

/-- The part of `Inv` that survives mid-dispatch states (between the
keystroke switch and the chunk-boundary blocks the cursor may sit exactly at
the end of the text). -/
structure PreInv (s : Session) : Prop where
  lockstep : (s.userInput.length : ℤ) = s.position
  pos_le : s.position ≤ (s.text.length : ℤ)
  mist_nonneg : 0 ≤ s.mistakes
  totalMist_nonneg : 0 ≤ s.totalMistakes
  totalChars_nonneg : 0 ≤ s.totalChars
  back_nonneg : 0 ≤ s.backspaceCount
  corr_nonneg : 0 ≤ s.correctedErrors
  unc_ge : (mismatches s.userInput s.text : ℤ) ≤ s.uncorrectedErrors
  chunks_ok : ∀ c ∈ s.allChunks, c ≠ []
  chunkIndex_ge : -1 ≤ s.chunkIndex

/-- A valid record with a given WPM (15 s / 60 chars: passes the validity
filter), used by the worked statistics examples. -/
def validRec (wpm : ℚ) : SessionRecord :=
  { DurationMs := 15000, TextLength := 60, WPM := wpm }

/-- The spec's 12-record worked example (newest-first WPM values). -/
def example12 : List SessionRecord :=
  [validRec 60, validRec 58, validRec 55, validRec 50, validRec 48, validRec 45,
   validRec 44, validRec 42, validRec 40, validRec 38, validRec 36, validRec 35]

/-- An invalid (too short) record used by witnesses. -/
def invalidRec : SessionRecord := { DurationMs := 1000, TextLength := 10, WPM := 80 }

/-- Built-in challenge level 5 (a Beginner boss level) wired into the game's
`Level` shape, as `StartChallengeGame` does. -/
def level5 : Level := toGameLevel (GetBuiltInLevels.getD 4 default)

/-- A level-5 run one second before expiry: accuracy 89 %, all other
thresholds comfortably met. -/
def level5Run : GameState :=
  { Phase := "normal", TimeLeft := 1, WordsTyped := 50, Mistakes := 11,
    TotalChars := 100 }

/-- A text-source oracle that always hands out "abc". -/
def sampleEnv : Env := ⟨fun _ => ['a', 'b', 'c']⟩

/-- A fresh running words-mode session over the two-character text "ab". -/
def sampleWordsSession : Session :=
  { mode := "words", text := ['a', 'b'], running := true }

/-- A running session holding one mistyped in-flight character. -/
def sampleBackspaceSession : Session :=
  { mode := "words", text := ['a', 'b'], userInput := ['x'], position := 1,
    mistakes := 1, uncorrectedErrors := 1, running := true }

/-- A short mixed trace: keystrokes and a timer tick. -/
def sampleTrace : List Event :=
  [.key (.char 'x') 100, .key .backspace 200, .key (.char 'a') 300,
   .tick 400, .key (.char 'b') 500]

/-- Mistype twice, erase twice, then hit the right key: the mistakes counter
keeps both slips while only one typed character remains. -/
def mistypedTrace : List Event :=
  [.key (.char 'x') 0, .key .backspace 0, .key (.char 'y') 0,
   .key .backspace 0, .key (.char 'a') 0]

/-- A concrete mid-chunk timed session used by witnesses: 1 s limit, two
in-flight characters, one in-flight mistake. -/
def sampleTimedSession : Session :=
  { mode := "timed", running := true, timeLimitNs := 1000000000,
    userInput := ['a', 'b'], totalChars := 3, mistakes := 1,
    totalMistakes := 2, text := ['a', 'b', 'c'] }

/-! ## Theorems -/

/-- **C5**: for every completed session's emitted record, `NetWPM ≤ WPM`: the
5-character penalty per uncorrected error (floored at 0) never makes the net
rate exceed the gross rate, for the same non-negative total character count
and the same duration. -/
theorem C5_netWPM_le_WPM (totalChars uncorrectedErrors : ℤ) (duration : ℚ)
    (hc : 0 ≤ totalChars) (hu : 0 ≤ uncorrectedErrors) :
    CalculateNetWPM totalChars uncorrectedErrors duration ≤
      CalculateWPM totalChars duration := by
  unfold CalculateNetWPM CalculateWPM
  split
  · exact le_refl 0
  · rename_i hd
    push_neg at hd
    have hm : 0 < minutesOf duration := by
      unfold minutesOf nsPerMinute
      positivity
    have hu' : (0 : ℚ) ≤ (uncorrectedErrors : ℚ) := by exact_mod_cast hu
    have hpen : (if ((totalChars - uncorrectedErrors * 5 : ℤ) : ℚ) < 0 then (0 : ℚ)
        else ((totalChars - uncorrectedErrors * 5 : ℤ) : ℚ)) ≤ (totalChars : ℚ) := by
      split
      · exact_mod_cast hc
      · push_cast
        linarith
    dsimp only
    exact (div_le_div_iff_of_pos_right hm).mpr ((div_le_div_iff_of_pos_right (by norm_num : (0:ℚ) < 5)).mpr hpen)

/-- Witness for `C5_netWPM_le_WPM` at 10 chars, 1 uncorrected error, 60 s. -/
theorem C5_netWPM_le_WPM_witness :
    (0 : ℤ) ≤ 10 ∧ (0 : ℤ) ≤ 1 ∧
      CalculateNetWPM 10 1 60000000000 ≤ CalculateWPM 10 60000000000 :=
  ⟨by norm_num, by norm_num,
    C5_netWPM_le_WPM 10 1 60000000000 (by norm_num) (by norm_num)⟩

/-- If `c ≤ q` for an integer bound `c`, rounding `q` to one decimal place
(half away from zero, on non-negative inputs) stays at or above `c`. -/
theorem roundTenth_ge (q : ℚ) (c : ℤ) (h : (c : ℚ) ≤ q) : (c : ℚ) ≤ roundTenth q := by
  unfold roundTenth
  have h10 : ((10 * c : ℤ) : ℚ) ≤ q * 10 + 1 / 2 := by push_cast; linarith
  have hfl : (10 * c : ℤ) ≤ ⌊q * 10 + 1 / 2⌋ := Int.le_floor.mpr h10
  have : ((10 * c : ℤ) : ℚ) ≤ ((⌊q * 10 + 1 / 2⌋ : ℤ) : ℚ) := by exact_mod_cast hfl
  push_cast at this ⊢
  linarith

/-- The pre-rounding accuracy threshold is at least 85 for every tier and
index: the clamp and the level-100 override both guarantee it. -/
theorem levelAccuracy_ge (tier : DifficultyTier) (i : ℕ) :
    (85 : ℚ) ≤ levelAccuracy tier i := by
  unfold levelAccuracy
  dsimp only
  split
  · norm_num
  · split
    · exact le_refl _
    · linarith [not_lt.mp (by assumption)]

/-- Every level the generator emits respects the floor clamps and computes
`MinWords` as the ceiling of `MinChars / 5.5`. -/
theorem mkLevel_bounds (tier : DifficultyTier) (i : ℕ) :
    85 ≤ (mkLevel tier i).MinAccuracy ∧ 20 ≤ (mkLevel tier i).TimeSeconds ∧
    10 ≤ (mkLevel tier i).MinChars ∧ 1 ≤ (mkLevel tier i).MaxMistakes ∧
    (mkLevel tier i).MinWords = ⌈((mkLevel tier i).MinChars : ℚ) / (11 / 2)⌉ := by
  refine ⟨?_, ?_, ?_, ?_, rfl⟩
  · have h := roundTenth_ge (levelAccuracy tier i) 85
      (by exact_mod_cast levelAccuracy_ge tier i)
    exact_mod_cast h
  · show 20 ≤ levelTime tier i
    unfold levelTime
    dsimp only
    split
    · norm_num
    · split <;> omega
  · show 10 ≤ levelChars tier i
    unfold levelChars
    dsimp only
    split
    · norm_num
    · split <;> omega
  · show 1 ≤ levelMistakes tier i
    unfold levelMistakes
    dsimp only
    split
    · norm_num
    · split <;> omega

/-- **C10**: `GetBuiltInLevels` returns exactly 100 levels; every generated
level satisfies the floor clamps `MinAccuracy ≥ 85.0`, `TimeSeconds ≥ 20`,
`MinChars ≥ 10` and `MaxMistakes ≥ 1`, with `MinWords = ⌈MinChars / 5.5⌉`;
and level 100 has `MinAccuracy` 99.5, `TimeSeconds` 120, `MinChars` 2000 and
`MaxMistakes` 5. -/
theorem C10_builtInLevels :
    GetBuiltInLevels.length = 100 ∧
    (∀ l ∈ GetBuiltInLevels,
      85 ≤ l.MinAccuracy ∧ 20 ≤ l.TimeSeconds ∧ 10 ≤ l.MinChars ∧
      1 ≤ l.MaxMistakes ∧ l.MinWords = ⌈(l.MinChars : ℚ) / (11 / 2)⌉) ∧
    GetBuiltInLevels.getD 99 default =
      { TimeSeconds := 120, MinAccuracy := 99.5, MaxMistakes := 5,
        MinChars := 2000, MinWords := 364, IsBoss := true } := by
  refine ⟨by decide, ?_, ?_⟩
  · intro l hl
    rw [GetBuiltInLevels, List.mem_flatten] at hl
    obtain ⟨blk, hblk, hl⟩ := hl
    rw [List.mem_map] at hblk
    obtain ⟨tier, -, rfl⟩ := hblk
    rw [List.mem_map] at hl
    obtain ⟨i, -, rfl⟩ := hl
    exact mkLevel_bounds tier i
  · have h : GetBuiltInLevels.getD 99 default =
        mkLevel ⟨96, 100, 98 + 1/2, 60, 400, 3⟩ 4 := by rfl
    rw [h]
    unfold mkLevel levelTime levelAccuracy levelChars levelMistakes levelNum roundTenth
    norm_num [Int.ceil_eq_iff]

/-- **C2**: for every running session with `timeLimit > 0`, a timer tick
observing `duration ≥ timeLimit` forces `completed = true`, clamps the
duration to exactly `timeLimit`, folds the in-flight `userInput` and
`mistakes` of the current chunk into the totals reflected in the emitted
record, and emits exactly one terminal record — regardless of the cursor
position within the current chunk. -/
theorem C2_updateTimer_expiry (s : Session) (elapsedNs : ℤ)
    (hrun : s.running = true) (hpos : 0 < s.timeLimitNs)
    (hexp : s.timeLimitNs ≤ elapsedNs) :
    ∃ r : SessionRecord,
      (updateTimer elapsedNs s).2 = some r ∧
      (updateTimer elapsedNs s).1.completed = true ∧
      (updateTimer elapsedNs s).1.running = false ∧
      (updateTimer elapsedNs s).1.durationNs = s.timeLimitNs ∧
      r.DurationMs = s.timeLimitNs / 1000000 ∧
      r.WPM = CalculateWPM (s.totalChars + s.userInput.length) (s.timeLimitNs : ℚ) ∧
      r.Accuracy = CalculateAccuracy (s.totalChars + s.userInput.length)
        (s.totalMistakes + s.mistakes) ∧
      r.NetWPM = CalculateNetWPM (s.totalChars + s.userInput.length)
        s.uncorrectedErrors (s.timeLimitNs : ℚ) ∧
      (s.mode = "timed" ∨ s.mode = "words" ∨ s.mode = "practice" →
        r.Mistakes = s.totalMistakes + s.mistakes) := by
  unfold updateTimer
  rw [hrun]
  simp only [if_true]
  rw [if_pos (by exact ⟨hpos, hexp⟩)]
  refine ⟨_, rfl, rfl, rfl, rfl, rfl, ?_, ?_, rfl, ?_⟩
  · unfold mkTimerRecord Session.calculateWPM CalculateWPM
    simp only
    rw [if_neg (by omega), if_neg (by simp only [not_le]; exact_mod_cast hpos)]
  · unfold mkTimerRecord Session.calculateAccuracy CalculateAccuracy
    rfl
  · intro hm
    unfold mkTimerRecord
    simp only
    rw [if_pos hm]

/-- Witness for `C2_updateTimer_expiry`: a timed session, 1 s limit, tick at
2 s with an in-flight chunk. -/
theorem C2_updateTimer_expiry_witness :
    sampleTimedSession.running = true ∧ 0 < sampleTimedSession.timeLimitNs ∧
    sampleTimedSession.timeLimitNs ≤ 2000000000 ∧
    ∃ r : SessionRecord,
      (updateTimer 2000000000 sampleTimedSession).2 = some r ∧
      (updateTimer 2000000000 sampleTimedSession).1.completed = true ∧
      (updateTimer 2000000000 sampleTimedSession).1.running = false ∧
      (updateTimer 2000000000 sampleTimedSession).1.durationNs =
        sampleTimedSession.timeLimitNs ∧
      r.DurationMs = sampleTimedSession.timeLimitNs / 1000000 ∧
      r.WPM = CalculateWPM (sampleTimedSession.totalChars +
        sampleTimedSession.userInput.length) (sampleTimedSession.timeLimitNs : ℚ) ∧
      r.Accuracy = CalculateAccuracy (sampleTimedSession.totalChars +
          sampleTimedSession.userInput.length)
        (sampleTimedSession.totalMistakes + sampleTimedSession.mistakes) ∧
      r.NetWPM = CalculateNetWPM (sampleTimedSession.totalChars +
          sampleTimedSession.userInput.length)
        sampleTimedSession.uncorrectedErrors (sampleTimedSession.timeLimitNs : ℚ) ∧
      (sampleTimedSession.mode = "timed" ∨ sampleTimedSession.mode = "words" ∨
        sampleTimedSession.mode = "practice" →
        r.Mistakes = sampleTimedSession.totalMistakes + sampleTimedSession.mistakes) :=
  ⟨rfl, by norm_num [sampleTimedSession], by norm_num [sampleTimedSession],
    C2_updateTimer_expiry sampleTimedSession 2000000000 rfl
      (by norm_num [sampleTimedSession]) (by norm_num [sampleTimedSession])⟩

/-- Inserting an invalid record anywhere leaves the valid subset unchanged. -/
theorem filterValid_insert (l1 l2 : List SessionRecord) (r : SessionRecord)
    (h : isValidRecord r = false) :
    filterValidSessions (l1 ++ r :: l2) = filterValidSessions (l1 ++ l2) := by
  unfold filterValidSessions
  simp [List.filter_append, List.filter_cons, h]

/-- The reported outlier count always equals total records minus valid
records. -/
theorem outlierCount_eq (t : ℤ) (rs : List SessionRecord) :
    (calculateStatistics t rs).OutlierCount =
      (rs.length : ℤ) - ((filterValidSessions rs).length : ℤ) := by
  unfold calculateStatistics
  dsimp only
  split
  · rename_i h
    rw [List.length_eq_zero] at h
    subst h
    rfl
  · split
    · rfl
    · unfold calculateImprovementRate calculateRecentPerformance
        calculateNormalizedStats
      dsimp only
      repeat' split
      all_goals rfl

/-- Two record histories with the same valid subset (the first non-empty)
produce identical valid-only statistics: valid subset, the six normalized
aggregates, recency window, consistency variance, improvement rate and
streaks. -/
theorem calcStats_validOnly_congr (t : ℤ) (rs1 rs2 : List SessionRecord)
    (h1 : rs1.length ≠ 0)
    (hval : filterValidSessions rs1 = filterValidSessions rs2) :
    (calculateStatistics t rs1).ValidSessions =
      (calculateStatistics t rs2).ValidSessions ∧
    (calculateStatistics t rs1).NormalizedAvgWPM =
      (calculateStatistics t rs2).NormalizedAvgWPM ∧
    (calculateStatistics t rs1).NormalizedPeakWPM =
      (calculateStatistics t rs2).NormalizedPeakWPM ∧
    (calculateStatistics t rs1).NetAvgWPM = (calculateStatistics t rs2).NetAvgWPM ∧
    (calculateStatistics t rs1).NetPeakWPM = (calculateStatistics t rs2).NetPeakWPM ∧
    (calculateStatistics t rs1).AdjustedAvgWPM =
      (calculateStatistics t rs2).AdjustedAvgWPM ∧
    (calculateStatistics t rs1).AdjustedPeakWPM =
      (calculateStatistics t rs2).AdjustedPeakWPM ∧
    (calculateStatistics t rs1).RecentValidAvgWPM =
      (calculateStatistics t rs2).RecentValidAvgWPM ∧
    (calculateStatistics t rs1).RecentValidCountUsed =
      (calculateStatistics t rs2).RecentValidCountUsed ∧
    (calculateStatistics t rs1).RecentVariance =
      (calculateStatistics t rs2).RecentVariance ∧
    (calculateStatistics t rs1).ImprovementRate =
      (calculateStatistics t rs2).ImprovementRate ∧
    (calculateStatistics t rs1).CurrentStreak =
      (calculateStatistics t rs2).CurrentStreak ∧
    (calculateStatistics t rs1).LongestStreak =
      (calculateStatistics t rs2).LongestStreak := by
  by_cases h2 : rs2.length = 0
  · have hrs2 : rs2 = [] := List.length_eq_zero.mp h2
    subst hrs2
    have hv1 : filterValidSessions rs1 = [] := by
      rw [hval]
      rfl
    have hB : calculateStatistics t ([] : List SessionRecord) = {} := rfl
    rw [hB]
    unfold calculateStatistics
    dsimp only
    rw [if_neg h1, hv1,
      if_pos (show ([] : List SessionRecord).length = 0 from rfl)]
    exact ⟨rfl, rfl, rfl, rfl, rfl, rfl, rfl, rfl, rfl, rfl, rfl, rfl, rfl⟩
  · unfold calculateStatistics
    dsimp only
    rw [if_neg h1, if_neg h2, hval]
    by_cases hv : (filterValidSessions rs2).length = 0
    · rw [if_pos hv, if_pos hv]
      exact ⟨rfl, rfl, rfl, rfl, rfl, rfl, rfl, rfl, rfl, rfl, rfl, rfl, rfl⟩
    · rw [if_neg hv, if_neg hv]
      unfold calculateImprovementRate calculateRecentPerformance
        calculateNormalizedStats
      dsimp only
      repeat' split
      all_goals exact ⟨rfl, rfl, rfl, rfl, rfl, rfl, rfl, rfl, rfl, rfl, rfl, rfl, rfl⟩

/-- The raw WPM average of a non-empty history is the mean over all records. -/
theorem rawAvgWPM_eq (t : ℤ) (rs : List SessionRecord) (h : rs.length ≠ 0) :
    (calculateStatistics t rs).RawAvgWPM =
      sumBy SessionRecord.WPM rs / (rs.length : ℚ) := by
  unfold calculateStatistics
  dsimp only
  rw [if_neg h]
  split
  · rfl
  · unfold calculateImprovementRate calculateRecentPerformance
      calculateNormalizedStats
    dsimp only
    repeat' split
    all_goals rfl

/-- The session total of any history is the record count. -/
theorem totalSessions_eq (t : ℤ) (rs : List SessionRecord) :
    (calculateStatistics t rs).TotalSessions = (rs.length : ℤ) := by
  by_cases h : rs.length = 0
  · rw [List.length_eq_zero] at h
    subst h
    rfl
  · unfold calculateStatistics
    dsimp only
    rw [if_neg h]
    split
    · rfl
    · unfold calculateImprovementRate calculateRecentPerformance
        calculateNormalizedStats
      dsimp only
      repeat' split
      all_goals rfl

/-- **C3**: a record is valid iff `durationMs ≥ 15000` and
`textLength ≥ 60`; inserting an invalid record anywhere in the history
changes none of the valid-only statistics (valid subset, normalized
average/peak WPM and net/adjusted variants, recency window, consistency
variance, improvement rate, streaks), while the raw aggregates do include
it, the session total grows by one and the outlier count (always equal to
total − valid) grows by one. -/
theorem C3_validity_filter (t : ℤ) (l1 l2 : List SessionRecord)
    (r : SessionRecord) (hr : ¬ (15000 ≤ r.DurationMs ∧ 60 ≤ r.TextLength)) :
    (∀ x : SessionRecord,
      isValidRecord x = true ↔ (15000 ≤ x.DurationMs ∧ 60 ≤ x.TextLength)) ∧
    (∀ rs : List SessionRecord, (calculateStatistics t rs).OutlierCount =
      (rs.length : ℤ) - ((filterValidSessions rs).length : ℤ)) ∧
    (calculateStatistics t (l1 ++ r :: l2)).ValidSessions =
      (calculateStatistics t (l1 ++ l2)).ValidSessions ∧
    (calculateStatistics t (l1 ++ r :: l2)).NormalizedAvgWPM =
      (calculateStatistics t (l1 ++ l2)).NormalizedAvgWPM ∧
    (calculateStatistics t (l1 ++ r :: l2)).NormalizedPeakWPM =
      (calculateStatistics t (l1 ++ l2)).NormalizedPeakWPM ∧
    (calculateStatistics t (l1 ++ r :: l2)).NetAvgWPM =
      (calculateStatistics t (l1 ++ l2)).NetAvgWPM ∧
    (calculateStatistics t (l1 ++ r :: l2)).NetPeakWPM =
      (calculateStatistics t (l1 ++ l2)).NetPeakWPM ∧
    (calculateStatistics t (l1 ++ r :: l2)).AdjustedAvgWPM =
      (calculateStatistics t (l1 ++ l2)).AdjustedAvgWPM ∧
    (calculateStatistics t (l1 ++ r :: l2)).AdjustedPeakWPM =
      (calculateStatistics t (l1 ++ l2)).AdjustedPeakWPM ∧
    (calculateStatistics t (l1 ++ r :: l2)).RecentValidAvgWPM =
      (calculateStatistics t (l1 ++ l2)).RecentValidAvgWPM ∧
    (calculateStatistics t (l1 ++ r :: l2)).RecentValidCountUsed =
      (calculateStatistics t (l1 ++ l2)).RecentValidCountUsed ∧
    (calculateStatistics t (l1 ++ r :: l2)).RecentVariance =
      (calculateStatistics t (l1 ++ l2)).RecentVariance ∧
    (calculateStatistics t (l1 ++ r :: l2)).ImprovementRate =
      (calculateStatistics t (l1 ++ l2)).ImprovementRate ∧
    (calculateStatistics t (l1 ++ r :: l2)).CurrentStreak =
      (calculateStatistics t (l1 ++ l2)).CurrentStreak ∧
    (calculateStatistics t (l1 ++ r :: l2)).LongestStreak =
      (calculateStatistics t (l1 ++ l2)).LongestStreak ∧
    (calculateStatistics t (l1 ++ r :: l2)).TotalSessions =
      (calculateStatistics t (l1 ++ l2)).TotalSessions + 1 ∧
    (calculateStatistics t (l1 ++ r :: l2)).OutlierCount =
      (calculateStatistics t (l1 ++ l2)).OutlierCount + 1 ∧
    (calculateStatistics t (l1 ++ r :: l2)).RawAvgWPM =
      (sumBy SessionRecord.WPM (l1 ++ l2) + r.WPM) /
        (((l1 ++ l2).length : ℚ) + 1) := by
  have hrb : isValidRecord r = false := by
    simp only [isValidRecord, decide_eq_false_iff_not, not_and]
    intro h15 h60
    exact hr ⟨by omega, h60⟩
  have hval := filterValid_insert l1 l2 r hrb
  have hlen : (l1 ++ r :: l2).length = (l1 ++ l2).length + 1 := by
    simp
    omega
  have hns : (l1 ++ r :: l2).length ≠ 0 := by simp
  have hchar : ∀ x : SessionRecord,
      isValidRecord x = true ↔ (15000 ≤ x.DurationMs ∧ 60 ≤ x.TextLength) := by
    intro x
    simp only [isValidRecord, decide_eq_true_eq]
    omega
  obtain ⟨hvs, hnavg, hnpk, hnet, hnetpk, hadj, hadjpk, hravg, hrcnt, hrvar,
    himp, hcur, hlong⟩ := calcStats_validOnly_congr t (l1 ++ r :: l2) (l1 ++ l2) hns hval
  refine ⟨hchar, fun rs => outlierCount_eq t rs, hvs, hnavg, hnpk, hnet, hnetpk,
    hadj, hadjpk, hravg, hrcnt, hrvar, himp, hcur, hlong, ?_, ?_, ?_⟩
  · rw [totalSessions_eq, totalSessions_eq, hlen]
    push_cast
    ring
  · rw [outlierCount_eq, outlierCount_eq, hval, hlen]
    push_cast
    ring
  · rw [rawAvgWPM_eq t _ hns, hlen]
    have hsum : sumBy SessionRecord.WPM (l1 ++ r :: l2) =
        sumBy SessionRecord.WPM (l1 ++ l2) + r.WPM := by
      unfold sumBy
      simp
      ring
    rw [hsum]
    push_cast
    ring

/-- Summing `f (l.getD i)` over `i < n` is summing `f` over `l.take n`. -/
theorem range_map_getD_sum (l : List SessionRecord) (n : ℕ) (hn : n ≤ l.length) :
    ((List.range n).map fun i => (l.getD i default).WPM).sum =
      ((l.take n).map SessionRecord.WPM).sum := by
  induction n with
  | zero => rfl
  | succ k ih =>
    have hk : k < l.length := by omega
    rw [List.range_succ, List.map_append, List.sum_append, ih (by omega),
        List.take_succ, List.map_append, List.sum_append]
    simp [List.getD_eq_getElem?_getD, List.getElem?_eq_getElem hk]

/-- The mirrored-tail indexing `len - 1 - i` reads the reversed list. -/
theorem getD_mirror (l : List SessionRecord) (i : ℕ) (hi : i < l.length) :
    l.getD (l.length - 1 - i) default = l.reverse.getD i default := by
  have hrev : i < l.reverse.length := by simpa using hi
  have hlt : l.length - 1 - i < l.length := by omega
  rw [List.getD_eq_getElem?_getD, List.getD_eq_getElem?_getD,
      List.getElem?_eq_getElem hrev, List.getElem?_eq_getElem hlt]
  simp only [Option.getD_some]
  rw [List.getElem_reverse]

/-- Summing the mirrored tail over `i < n` is summing over the reversed
list's first `n` entries. -/
theorem range_map_mirror_sum (l : List SessionRecord) (n : ℕ) (hn : n ≤ l.length) :
    ((List.range n).map fun i => (l.getD (l.length - 1 - i) default).WPM).sum =
      ((l.reverse.take n).map SessionRecord.WPM).sum := by
  rw [← range_map_getD_sum l.reverse n (by simpa using hn)]
  refine congrArg List.sum (List.map_congr_left ?_)
  intro i hi
  rw [List.mem_range] at hi
  rw [getD_mirror l i (by omega)]

/-- With fewer than 10 valid records the improvement stage is the identity. -/
theorem calcImprovement_small (valid : List SessionRecord) (stats : Statistics)
    (h : valid.length < 10) : calculateImprovementRate valid stats = stats := by
  unfold calculateImprovementRate
  rw [if_neg (by omega)]

/-- With at least 10 valid records but a non-positive older mean, the
improvement stage is still the identity. -/
theorem calcImprovement_nonpos (valid : List SessionRecord) (stats : Statistics)
    (h10 : 10 ≤ valid.length)
    (h : ((valid.reverse.take (valid.length / 2)).map SessionRecord.WPM).sum /
      ((valid.length / 2 : ℕ) : ℚ) ≤ 0) :
    calculateImprovementRate valid stats = stats := by
  unfold calculateImprovementRate
  rw [if_pos h10]
  dsimp only
  rw [range_map_mirror_sum valid _ (by omega), if_neg (by exact not_lt.mpr h)]

/-- With at least 10 valid records and a positive older mean, the improvement
rate is `(newerAvg − olderAvg) / olderAvg * 100`, where the newer mean is over
the first half and the older mean over the first half of the reversed list. -/
theorem calcImprovement_pos (valid : List SessionRecord) (stats : Statistics)
    (h10 : 10 ≤ valid.length)
    (h : 0 < ((valid.reverse.take (valid.length / 2)).map SessionRecord.WPM).sum /
      ((valid.length / 2 : ℕ) : ℚ)) :
    (calculateImprovementRate valid stats).ImprovementRate =
      (((valid.take (valid.length / 2)).map SessionRecord.WPM).sum /
          ((valid.length / 2 : ℕ) : ℚ) -
        ((valid.reverse.take (valid.length / 2)).map SessionRecord.WPM).sum /
          ((valid.length / 2 : ℕ) : ℚ)) /
        (((valid.reverse.take (valid.length / 2)).map SessionRecord.WPM).sum /
          ((valid.length / 2 : ℕ) : ℚ)) * 100 := by
  unfold calculateImprovementRate
  rw [if_pos h10]
  dsimp only
  rw [range_map_mirror_sum valid _ (by omega),
      range_map_getD_sum valid _ (by omega), if_pos h]

/-- Every record of the worked example passes the validity filter. -/
theorem example12_filter : filterValidSessions example12 = example12 := by
  have hv : ∀ w : ℚ, isValidRecord (validRec w) = true := by
    intro w
    simp only [isValidRecord, validRec, decide_eq_true_eq]
    norm_num
  unfold example12 filterValidSessions
  simp [List.filter_cons, hv]

/-- The worked example's 5-session recency average is 54.2. -/
theorem example12_recentAvg :
    (calculateStatistics 0 example12).RecentValidAvgWPM = 271 / 5 := by
  unfold calculateStatistics
  dsimp only
  rw [example12_filter, if_neg (by norm_num [example12]),
      if_neg (by norm_num [example12])]
  unfold calculateImprovementRate calculateRecentPerformance
    calculateNormalizedStats
  dsimp only
  repeat' split
  all_goals
    norm_num [example12, validRec, sumBy]

/-- The worked example's improvement rate is 8100/235 ≈ 34.47 %. -/
theorem example12_improvement :
    (calculateStatistics 0 example12).ImprovementRate = 8100 / 235 := by
  have hpos : 0 < ((example12.reverse.take (example12.length / 2)).map
      SessionRecord.WPM).sum / ((example12.length / 2 : ℕ) : ℚ) := by
    norm_num [example12, validRec]
  have hform := fun stats => calcImprovement_pos example12 stats
    (by norm_num [example12]) hpos
  unfold calculateStatistics
  dsimp only
  rw [example12_filter, if_neg (by norm_num [example12]),
      if_neg (by norm_num [example12])]
  show (calculateImprovementRate example12 _).ImprovementRate = 8100 / 235
  rw [hform]
  norm_num [example12, validRec]

/-- **C4** (amended): the improvement rate is only computed with at least 10
valid records; it is `(newerAvg − olderAvg) / olderAvg * 100` with the newer
mean over the first half (newest records) and the older mean over the
mirrored tail, and the stage is the identity when the older mean is
non-positive. On the 12-record example `[60,58,…,35]` the recency average is
54.2 and the improvement rate is 8100/235 ≈ +34.5 % (not ≈ +29 %). -/
theorem C4_improvementRate :
    (∀ (valid : List SessionRecord) (stats : Statistics),
      valid.length < 10 → calculateImprovementRate valid stats = stats) ∧
    (∀ (valid : List SessionRecord) (stats : Statistics), 10 ≤ valid.length →
      (((valid.reverse.take (valid.length / 2)).map SessionRecord.WPM).sum /
          ((valid.length / 2 : ℕ) : ℚ) ≤ 0 →
        calculateImprovementRate valid stats = stats) ∧
      (0 < ((valid.reverse.take (valid.length / 2)).map SessionRecord.WPM).sum /
          ((valid.length / 2 : ℕ) : ℚ) →
        (calculateImprovementRate valid stats).ImprovementRate =
          (((valid.take (valid.length / 2)).map SessionRecord.WPM).sum /
              ((valid.length / 2 : ℕ) : ℚ) -
            ((valid.reverse.take (valid.length / 2)).map SessionRecord.WPM).sum /
              ((valid.length / 2 : ℕ) : ℚ)) /
            (((valid.reverse.take (valid.length / 2)).map SessionRecord.WPM).sum /
              ((valid.length / 2 : ℕ) : ℚ)) * 100)) ∧
    (calculateStatistics 0 example12).RecentValidAvgWPM = 271 / 5 ∧
    (calculateStatistics 0 example12).ImprovementRate = 8100 / 235 :=
  ⟨calcImprovement_small,
   fun valid stats h10 =>
     ⟨calcImprovement_nonpos valid stats h10, calcImprovement_pos valid stats h10⟩,
   example12_recentAvg, example12_improvement⟩

/-- Witness for `C4_improvementRate` at the 12-record example with a fresh
statistics struct. -/
theorem C4_improvementRate_witness :
    10 ≤ example12.length ∧
    0 < ((example12.reverse.take (example12.length / 2)).map
      SessionRecord.WPM).sum / ((example12.length / 2 : ℕ) : ℚ) ∧
    (calculateImprovementRate example12 {}).ImprovementRate =
      (((example12.take (example12.length / 2)).map SessionRecord.WPM).sum /
          ((example12.length / 2 : ℕ) : ℚ) -
        ((example12.reverse.take (example12.length / 2)).map
          SessionRecord.WPM).sum / ((example12.length / 2 : ℕ) : ℚ)) /
        (((example12.reverse.take (example12.length / 2)).map
          SessionRecord.WPM).sum / ((example12.length / 2 : ℕ) : ℚ)) * 100 :=
  ⟨by norm_num [example12], by norm_num [example12, validRec],
   (C4_improvementRate.2.1 example12 {} (by norm_num [example12])).2
     (by norm_num [example12, validRec])⟩

/-- Counterexample to C4 as stated: the worked example's improvement rate is
8100/235 ≈ 34.47 %, more than five percentage points away from the claimed
≈ +29.0 %. -/
theorem C4_improvementRate_counterexample :
    (calculateStatistics 0 example12).ImprovementRate = 8100 / 235 ∧
    5 < |(calculateStatistics 0 example12).ImprovementRate - 29| ∧
    34 < (calculateStatistics 0 example12).ImprovementRate ∧
    (calculateStatistics 0 example12).ImprovementRate < 35 := by
  have hd : (calculateStatistics 0 example12).ImprovementRate - 29 = 1285 / 235 := by
    rw [example12_improvement]
    norm_num
  refine ⟨example12_improvement, ?_, ?_, ?_⟩
  · rw [hd, abs_of_pos (by norm_num)]
    norm_num
  · rw [example12_improvement]
    norm_num
  · rw [example12_improvement]
    norm_num

/-- The fully evaluated form of built-in level 5 after the game wiring. -/
theorem level5_eval : level5 =
    { Time := 32, ChunkSize := 10,
      BossRound := some { Words := 10, TimeLimit := 32, TriggerChunk := 0 },
      IsBoss := true, MinAccuracy := 908/10, MaxMistakes := 84,
      MinChars := 54, MinWords := 10 } := by
  rw [show level5 = toGameLevel (mkLevel ⟨1, 10, 90, 30, 15, 100⟩ 4) from rfl]
  unfold toGameLevel mkLevel levelTime levelAccuracy levelChars levelMistakes
    levelNum levelProgress roundTenth
  norm_num [Int.ceil_eq_iff, Int.floor_eq_iff]

/-- **C1** (amended): the four-condition requirement check routes a level to
`complete`/`failed` at the level boundary when the level has a boss round
(outside a hidden boss phase), and at timer expiry when it has none; but at
timer expiry a level with a boss round is marked `complete` unconditionally,
with a failed boss result recorded and no requirement check. The spec's
boss-level-5 example (accuracy 89 % with everything else passing) does yield
`failed` at the level boundary. -/
theorem C1_challengeRequirements :
    (∀ (level : Level) (br : BossRound) (st : GameState) (w m c : ℤ),
      st.Phase ≠ "boss" → level.BossRound = some br →
      ((handleSessionComplete level w m c st).Phase = "complete" ↔
        checkLevelRequirements
          { st with WordsTyped := st.WordsTyped + w, Mistakes := st.Mistakes + m,
                    TotalChars := st.TotalChars + c } level = true) ∧
      ((handleSessionComplete level w m c st).Phase = "failed" ↔
        checkLevelRequirements
          { st with WordsTyped := st.WordsTyped + w, Mistakes := st.Mistakes + m,
                    TotalChars := st.TotalChars + c } level = false)) ∧
    (∀ (level : Level) (st : GameState), level.BossRound = none →
      st.TimeLeft - 1 ≤ 0 →
      ((handleTick level st).Phase = "complete" ↔
        checkLevelRequirements { st with TimeLeft := st.TimeLeft - 1 } level = true) ∧
      ((handleTick level st).Phase = "failed" ↔
        checkLevelRequirements { st with TimeLeft := st.TimeLeft - 1 } level = false)) ∧
    (∀ (level : Level) (br : BossRound) (st : GameState),
      level.BossRound = some br → st.TimeLeft - 1 ≤ 0 →
      (handleTick level st).Phase = "complete") ∧
    (∀ (level : Level) (st : GameState),
      checkLevelRequirements st level = true ↔
        (level.MinAccuracy ≤ st.calculateAccuracy ∧
         st.Mistakes ≤ level.MaxMistakes ∧
         level.MinChars ≤ st.TotalChars ∧
         level.MinWords ≤ st.WordsTyped)) ∧
    (handleSessionComplete level5 0 0 0 level5Run).Phase = "failed" := by
  refine ⟨?_, ?_, ?_, ?_, ?_⟩
  · intro level br st w m c hph hbr
    unfold handleSessionComplete
    dsimp only
    rw [if_neg hph, hbr]
    dsimp only
    constructor <;> constructor <;> intro h
    · by_contra hc
      rw [Bool.not_eq_true] at hc
      rw [if_neg (by simp [hc])] at h
      exact absurd h (by simp)
    · rw [if_pos h]
    · by_contra hc
      rw [Bool.not_eq_false] at hc
      rw [if_pos hc] at h
      exact absurd h (by simp)
    · rw [if_neg (by simp [h])]
  · intro level st hbr hexp
    unfold handleTick
    dsimp only
    rw [if_pos hexp, hbr]
    dsimp only
    constructor <;> constructor <;> intro h
    · by_contra hc
      rw [Bool.not_eq_true] at hc
      rw [if_neg (by simp [hc])] at h
      exact absurd h (by simp)
    · rw [if_pos h]
    · by_contra hc
      rw [Bool.not_eq_false] at hc
      rw [if_pos hc] at h
      exact absurd h (by simp)
    · rw [if_neg (by simp [h])]
  · intro level br st hbr hexp
    unfold handleTick
    dsimp only
    rw [if_pos hexp, hbr]
  · intro level st
    unfold checkLevelRequirements
    simp only [decide_eq_true_eq]
  · unfold handleSessionComplete
    dsimp only
    rw [if_neg (by simp [level5Run]), level5_eval]
    dsimp only
    rw [if_neg ?_]
    unfold checkLevelRequirements GameState.calculateAccuracy CalculateAccuracy
    simp only [level5Run, decide_eq_true_eq]
    norm_num

/-- Witness for `C1_challengeRequirements`: level 5 at its boundary with the
89 %-accuracy run. -/
theorem C1_challengeRequirements_witness :
    level5Run.Phase ≠ "boss" ∧
    level5.BossRound = some { Words := 10, TimeLimit := 32, TriggerChunk := 0 } ∧
    ((handleSessionComplete level5 0 0 0 level5Run).Phase = "complete" ↔
      checkLevelRequirements
        { level5Run with
            WordsTyped := level5Run.WordsTyped + 0,
            Mistakes := level5Run.Mistakes + 0,
            TotalChars := level5Run.TotalChars + 0 } level5 = true) :=
  ⟨by simp [level5Run], by rw [level5_eval],
   (C1_challengeRequirements.1 level5
      { Words := 10, TimeLimit := 32, TriggerChunk := 0 } level5Run 0 0 0
      (by simp [level5Run]) (by rw [level5_eval])).1⟩

/-- Counterexample to C1 as stated: when the timer expires on boss level 5
with accuracy 89 % (every other threshold met), the state machine routes to
`complete`, not `failed`, without consulting the requirement check. -/
theorem C1_challengeRequirements_counterexample :
    checkLevelRequirements { level5Run with TimeLeft := 0 } level5 = false ∧
    level5Run.calculateAccuracy < level5.MinAccuracy ∧
    level5Run.Mistakes ≤ level5.MaxMistakes ∧
    level5.MinChars ≤ level5Run.TotalChars ∧
    level5.MinWords ≤ level5Run.WordsTyped ∧
    (handleTick level5 level5Run).Phase = "complete" ∧
    ¬ (handleTick level5 level5Run).Phase = "failed" := by
  have hacc : ({ level5Run with TimeLeft := 0 } : GameState).calculateAccuracy = 89 := by
    unfold GameState.calculateAccuracy CalculateAccuracy
    norm_num [level5Run]
  have hacc2 : level5Run.calculateAccuracy = 89 := by
    unfold GameState.calculateAccuracy CalculateAccuracy
    norm_num [level5Run]
  refine ⟨?_, ?_, ?_, ?_, ?_, ?_, ?_⟩
  · unfold checkLevelRequirements
    rw [hacc, level5_eval]
    simp only [decide_eq_false_iff_not]
    norm_num
  · rw [hacc2, level5_eval]
    norm_num
  · rw [level5_eval]
    norm_num [level5Run]
  · rw [level5_eval]
    norm_num [level5Run]
  · rw [level5_eval]
    norm_num [level5Run]
  · unfold handleTick
    dsimp only
    rw [level5_eval]
    norm_num [level5Run]
  · unfold handleTick
    dsimp only
    rw [level5_eval]
    norm_num [level5Run]
    simp

/-! ### Session invariant machinery -/

/-- Appending a character to the input adds one mismatch exactly when it
misses the target character at the append position. -/
theorem mismatches_append (u t : List Char) (c : Char) (h : u.length < t.length) :
    mismatches (u ++ [c]) t =
      mismatches u t + (if c = t.getD u.length ' ' then 0 else 1) := by
  induction u generalizing t with
  | nil =>
    cases t with
    | nil => simp at h
    | cons d t' =>
      simp [mismatches, List.getD]
  | cons a u' ih =>
    cases t with
    | nil => simp at h
    | cons d t' =>
      have h' : u'.length < t'.length := by simpa using h
      rw [List.cons_append]
      show (if a = d then 0 else 1) + mismatches (u' ++ [c]) t' =
        ((if a = d then 0 else 1) + mismatches u' t') +
          (if c = (d :: t').getD (a :: u').length ' ' then 0 else 1)
      rw [ih t' h']
      simp only [List.length_cons, List.getD_cons_succ]
      omega

/-- Removing the last input character removes one mismatch exactly when that
character missed its target. -/
theorem mismatches_dropLast (u t : List Char) (hne : u ≠ [])
    (h : u.length ≤ t.length) :
    mismatches u t = mismatches u.dropLast t +
      (if u.getLastD ' ' = t.getD (u.length - 1) ' ' then 0 else 1) := by
  have hsplit : u.dropLast ++ [u.getLast hne] = u := List.dropLast_append_getLast hne
  have hlen : u.dropLast.length = u.length - 1 := List.length_dropLast u
  have hlt : u.dropLast.length < t.length := by
    have : 1 ≤ u.length := List.length_pos.mpr hne
    omega
  conv_lhs => rw [← hsplit]
  rw [mismatches_append _ _ _ hlt, hlen]
  have hlast : u.getLastD ' ' = u.getLast hne := by
    rw [List.getLastD_eq_getLast?, List.getLast?_eq_getLast u hne]
    rfl
  rw [hlast]

/-- `Inv` gives `PreInv`. -/
theorem Inv.toPre {s : Session} (h : Inv s) : PreInv s :=
  ⟨h.lockstep, h.pos_le, h.mist_nonneg, h.totalMist_nonneg, h.totalChars_nonneg,
   h.back_nonneg, h.corr_nonneg, h.unc_ge, h.chunks_ok, h.chunkIndex_ge⟩

/-- `PreInv` plus strictness (or a terminal flag) gives `Inv`. -/
theorem PreInv.toInv {s : Session} (h : PreInv s)
    (hlt : s.running = true → s.completed = false → s.position < (s.text.length : ℤ)) :
    Inv s :=
  ⟨h.lockstep, h.pos_le, hlt, h.mist_nonneg, h.totalMist_nonneg,
   h.totalChars_nonneg, h.back_nonneg, h.corr_nonneg, h.unc_ge, h.chunks_ok,
   h.chunkIndex_ge⟩

theorem continuousBoundary_skip (env : Env) (s : Session)
    (h : s.position < (s.text.length : ℤ)) : continuousBoundary env s = s := by
  unfold continuousBoundary
  rw [if_neg (fun hc => absurd hc.2 (by omega))]

theorem chunkListBoundary_skip (m : String) (e : ℤ) (s : Session)
    (h : s.position < (s.text.length : ℤ)) : chunkListBoundary m e s = s := by
  unfold chunkListBoundary
  rw [if_neg (fun hc => absurd hc.2 (by omega))]

theorem chunkListBoundary_skip_mode (m : String) (e : ℤ) (s : Session)
    (h : s.mode ≠ m) : chunkListBoundary m e s = s := by
  unfold chunkListBoundary
  rw [if_neg (fun hc => h hc.1)]

theorem defaultBoundary_skip (e : ℤ) (s : Session)
    (h : s.position < (s.text.length : ℤ)) : defaultBoundary e s = s := by
  unfold defaultBoundary
  rw [if_neg (fun hc => absurd hc.2.2.2.2 (by omega))]

theorem lateBoundaries_skip (e : ℤ) (s : Session)
    (h : s.position < (s.text.length : ℤ)) : lateBoundaries e s = s := by
  unfold lateBoundaries
  rw [chunkListBoundary_skip _ _ _ h, chunkListBoundary_skip _ _ _ h,
      defaultBoundary_skip _ _ h]

/-- A regenerated chunk state satisfies the full invariant: fresh non-empty
text, cursor at 0, reset per-chunk counters. -/
theorem regen_inv (env : Env) (henv : EnvOK env) (t : Session)
    (hmist : 0 ≤ t.totalMistakes) (hchars : 0 ≤ t.totalChars)
    (hback : 0 ≤ t.backspaceCount) (hcorr : 0 ≤ t.correctedErrors)
    (hunc : 0 ≤ t.uncorrectedErrors) (hchunks : ∀ c ∈ t.allChunks, c ≠ [])
    (hidx : -1 ≤ t.chunkIndex) :
    Inv (regenChunk env t) := by
  have hlen : 0 < ((env.gen t.genIdx).length : ℤ) := by
    have := henv t.genIdx
    have : 0 < (env.gen t.genIdx).length := List.length_pos.mpr this
    omega
  exact ⟨by simp [regenChunk], by simp [regenChunk] <;> omega,
    fun _ _ => by simp [regenChunk] <;> omega,
    by simp [regenChunk], by simp [regenChunk, hmist], by simp [regenChunk, hchars],
    by simp [regenChunk, hback], by simp [regenChunk, hcorr],
    by simp [regenChunk, mismatches] <;> omega,
    by simp only [regenChunk]; exact hchunks, by simp [regenChunk, hidx]⟩

/-- The keystroke switch preserves the mid-dispatch invariant and leaves the
mode, flags, chunk configuration and text untouched. -/
theorem applyKey_pre (s : Session) (k : KeyEvent) (hs : Inv s)
    (hrun : s.running = true) (hcomp : s.completed = false) :
    PreInv (applyKey s k) ∧ (applyKey s k).mode = s.mode ∧
    (applyKey s k).running = s.running ∧ (applyKey s k).completed = s.completed ∧
    (applyKey s k).maxChunks = s.maxChunks ∧
    (applyKey s k).isGroupMode = s.isGroupMode ∧
    (applyKey s k).text = s.text ∧ (applyKey s k).allChunks = s.allChunks := by
  have hlock := hs.lockstep
  have hposle := hs.pos_le
  have hunc := hs.unc_ge
  have hmist := hs.mist_nonneg
  have htm := hs.totalMist_nonneg
  have htc := hs.totalChars_nonneg
  have hback := hs.back_nonneg
  have hcorr := hs.corr_nonneg
  have hcidx := hs.chunkIndex_ge
  cases k with
  | backspace =>
    unfold applyKey
    dsimp only
    by_cases hne : 0 < s.userInput.length
    · rw [if_pos hne]
      have hpos : 0 < s.position := by omega
      rw [if_pos hpos]
      have hne' : s.userInput ≠ [] := by
        intro h
        rw [h] at hne
        simp at hne
      have hul : s.userInput.length ≤ s.text.length := by omega
      have hdrop := mismatches_dropLast s.userInput s.text hne' hul
      have hidx : (s.position - 1).toNat = s.userInput.length - 1 := by omega
      by_cases hm : ¬ s.userInput.getLastD ' ' = s.text.getD (s.position - 1).toNat ' '
      · rw [if_pos hm]
        rw [hidx] at hm
        rw [if_neg hm] at hdrop
        refine ⟨⟨?_, ?_, ?_, ?_, ?_, ?_, ?_, ?_, ?_, ?_⟩,
          rfl, rfl, rfl, rfl, rfl, rfl, rfl⟩ <;>
          simp only [List.length_dropLast] <;>
          first
            | omega
            | exact hs.chunks_ok
      · rw [if_neg hm]
        rw [hidx] at hm
        rw [not_not] at hm
        rw [if_pos hm] at hdrop
        refine ⟨⟨?_, ?_, ?_, ?_, ?_, ?_, ?_, ?_, ?_, ?_⟩,
          rfl, rfl, rfl, rfl, rfl, rfl, rfl⟩ <;>
          simp only [List.length_dropLast] <;>
          first
            | omega
            | exact hs.chunks_ok
    · rw [if_neg hne]
      exact ⟨hs.toPre, rfl, rfl, rfl, rfl, rfl, rfl, rfl⟩
  | char c =>
    unfold applyKey
    dsimp only
    have hlt : s.position < (s.text.length : ℤ) := hs.pos_lt hrun hcomp
    rw [if_pos hlt]
    have hul : s.userInput.length < s.text.length := by omega
    have happ := mismatches_append s.userInput s.text c hul
    have hidx : s.position.toNat = s.userInput.length := by omega
    by_cases hc : c = s.text.getD s.position.toNat ' '
    · rw [if_pos hc]
      rw [hidx] at hc
      rw [if_pos hc] at happ
      refine ⟨⟨?_, ?_, ?_, ?_, ?_, ?_, ?_, ?_, ?_, ?_⟩,
        rfl, rfl, rfl, rfl, rfl, rfl, rfl⟩ <;>
        simp only [List.length_append, List.length_cons, List.length_nil] <;>
        first
          | omega
          | exact hs.chunks_ok
    · rw [if_neg hc]
      rw [hidx] at hc
      rw [if_neg hc] at happ
      refine ⟨⟨?_, ?_, ?_, ?_, ?_, ?_, ?_, ?_, ?_, ?_⟩,
        rfl, rfl, rfl, rfl, rfl, rfl, rfl⟩ <;>
        simp only [List.length_append, List.length_cons, List.length_nil] <;>
        first
          | omega
          | exact hs.chunks_ok

/-- The empty input has no mismatches. -/
theorem mismatches_nil (t : List Char) : mismatches [] t = 0 := by
  cases t <;> rfl

/-- The default boundary block skips every mode its condition excludes. -/
theorem defaultBoundary_skip_mode (e : ℤ) (s : Session)
    (h : s.mode = "timed" ∨ s.mode = "words" ∨ s.mode = "custom" ∨
      s.mode = "quotes") : defaultBoundary e s = s := by
  unfold defaultBoundary
  rcases h with h | h | h | h
  · rw [if_neg (fun hc => hc.1 h)]
  · rw [if_neg (fun hc => hc.2.1 h)]
  · rw [if_neg (fun hc => hc.2.2.1 h)]
  · rw [if_neg (fun hc => hc.2.2.2.1 h)]

/-- A fired custom/quotes boundary block restores the full invariant and
keeps the mode. -/
theorem chunkList_fire_inv (m : String) (e : ℤ) (t : Session) (h : PreInv t)
    (hm : t.mode = m) (hge : (t.text.length : ℤ) ≤ t.position) :
    Inv (chunkListBoundary m e t) ∧ (chunkListBoundary m e t).mode = t.mode := by
  have hlock := h.lockstep
  have hposle := h.pos_le
  have hunc := h.unc_ge
  have hmist := h.mist_nonneg
  have htm := h.totalMist_nonneg
  have htc := h.totalChars_nonneg
  have hback := h.back_nonneg
  have hcorr := h.corr_nonneg
  have hcidx := h.chunkIndex_ge
  unfold chunkListBoundary
  rw [if_pos ⟨hm, hge⟩]
  dsimp only
  by_cases hdone : (t.allChunks.length : ℤ) ≤ t.chunkIndex + 1
  · rw [if_pos hdone]
    refine ⟨⟨?_, ?_, ?_, ?_, ?_, ?_, ?_, ?_, ?_, ?_, ?_⟩, rfl⟩ <;>
      dsimp only <;>
      first
        | omega
        | (intro _ hfalse; simp at hfalse)
        | exact h.chunks_ok
  · rw [if_neg hdone]
    have hin : t.allChunks.getD (t.chunkIndex + 1).toNat [] ∈ t.allChunks := by
      have hlt : (t.chunkIndex + 1).toNat < t.allChunks.length := by omega
      rw [List.getD_eq_getElem?_getD, List.getElem?_eq_getElem hlt]
      exact List.getElem_mem hlt
    have hne : t.allChunks.getD (t.chunkIndex + 1).toNat [] ≠ [] :=
      h.chunks_ok _ hin
    have hlen : 0 < (t.allChunks.getD (t.chunkIndex + 1).toNat []).length :=
      List.length_pos.mpr hne
    refine ⟨⟨?_, ?_, ?_, ?_, ?_, ?_, ?_, ?_, ?_, ?_, ?_⟩, rfl⟩ <;>
      dsimp only <;>
      first
        | omega
        | (simp only [mismatches_nil, Nat.cast_zero]; omega)
        | (simp; done)
        | (intro _ _; omega)
        | exact h.chunks_ok

/-- The custom → quotes → default chain restores the full invariant,
provided the continuous/practice modes were already handled upstream. -/
theorem lateBoundaries_inv (e : ℤ) (t : Session) (h : PreInv t)
    (hrun : t.running = true) (hcomp : t.completed = false)
    (hmode : (t.text.length : ℤ) ≤ t.position →
      t.mode ≠ "timed" ∧ t.mode ≠ "words") :
    Inv (lateBoundaries e t) := by
  by_cases hlt : t.position < (t.text.length : ℤ)
  · rw [lateBoundaries_skip _ _ hlt]
    exact h.toInv (fun _ _ => hlt)
  · have hge : (t.text.length : ℤ) ≤ t.position := by omega
    obtain ⟨htimed, hwords⟩ := hmode hge
    unfold lateBoundaries
    by_cases hcust : t.mode = "custom"
    · obtain ⟨hI, hm⟩ := chunkList_fire_inv "custom" e t h hcust hge
      rw [chunkListBoundary_skip_mode "quotes" _ _ (by rw [hm, hcust]; decide),
          defaultBoundary_skip_mode _ _ (Or.inr (Or.inr (Or.inl (by rw [hm, hcust]))))]
      exact hI
    · rw [chunkListBoundary_skip_mode "custom" _ _ hcust]
      by_cases hq : t.mode = "quotes"
      · obtain ⟨hI, hm⟩ := chunkList_fire_inv "quotes" e t h hq hge
        rw [defaultBoundary_skip_mode _ _ (Or.inr (Or.inr (Or.inr (by rw [hm, hq]))))]
        exact hI
      · rw [chunkListBoundary_skip_mode "quotes" _ _ hq]
        unfold defaultBoundary
        rw [if_pos ⟨htimed, hwords, hcust, hq, hge⟩]
        have hlock := h.lockstep
        have hposle := h.pos_le
        have hunc := h.unc_ge
        have hmist := h.mist_nonneg
        have htm := h.totalMist_nonneg
        have htc := h.totalChars_nonneg
        have hback := h.back_nonneg
        have hcorr := h.corr_nonneg
        have hcidx := h.chunkIndex_ge
        refine ⟨?_, ?_, ?_, ?_, ?_, ?_, ?_, ?_, ?_, ?_, ?_⟩ <;>
          dsimp only <;>
          first
            | omega
            | (intro _ hfalse; simp at hfalse)
            | exact h.chunks_ok

/-- A regenerated chunk's cursor is strictly inside its (non-empty) text. -/
theorem regen_pos_lt (env : Env) (henv : EnvOK env) (t : Session) :
    (regenChunk env t).position < (((regenChunk env t).text.length : ℕ) : ℤ) := by
  simp only [regenChunk]
  have := List.length_pos.mpr (henv t.genIdx)
  omega

/-- One keystroke preserves the session invariant. -/
theorem handleInput_inv (env : Env) (henv : EnvOK env) (e : ℤ) (s : Session)
    (hs : Inv s) (k : KeyEvent) : Inv (handleInput env e s k) := by
  unfold handleInput
  by_cases hg : ¬ (s.running = true) ∨ s.completed = true
  · rw [if_pos hg]
    exact hs
  · push_neg at hg
    obtain ⟨hrun, hcomp'⟩ := hg
    have hcomp : s.completed = false := by
      cases hcs : s.completed
      · rfl
      · exact absurd hcs hcomp'
    rw [if_neg (by push_neg; exact ⟨hrun, hcomp'⟩)]
    dsimp only
    obtain ⟨hpre1, hmode1, hrun1, hcomp1, hmax1, hgrp1, htext1, hchunks1⟩ :=
      applyKey_pre s k hs hrun hcomp
    set s1 := applyKey s k with hS1
    have hrun1' : s1.running = true := hrun1.trans hrun
    have hcomp1' : s1.completed = false := hcomp1.trans hcomp
    by_cases hcont : (s1.mode = "timed" ∨ s1.mode = "words" ∨
        (s1.mode = "practice" ∧ s1.maxChunks = 0)) ∧ (s1.text.length : ℤ) ≤ s1.position
    · unfold continuousBoundary
      rw [if_pos hcont]
      have hI2 : Inv (regenChunk env
          { s1 with totalChars := s1.totalChars + s1.userInput.length,
                    totalMistakes := s1.totalMistakes + s1.mistakes }) := by
        apply regen_inv env henv <;> dsimp only
        · have := hpre1.totalMist_nonneg
          have := hpre1.mist_nonneg
          omega
        · have := hpre1.totalChars_nonneg
          omega
        · exact hpre1.back_nonneg
        · exact hpre1.corr_nonneg
        · have := hpre1.unc_ge
          omega
        · exact hpre1.chunks_ok
        · exact hpre1.chunkIndex_ge
      rw [if_neg ?_, lateBoundaries_skip _ _ (regen_pos_lt env henv _)]
      · exact hI2
      · intro hcnd
        have hpm : s1.mode = "practice" := by
          have := hcnd.1
          simpa [regenChunk] using this
        have hmx : 0 < s1.maxChunks := by
          have := hcnd.2.1
          simpa [regenChunk] using this
        rcases hcont.1 with h | h | ⟨h, h0⟩
        · rw [hpm] at h
          exact absurd h (by decide)
        · rw [hpm] at h
          exact absurd h (by decide)
        · omega
    · unfold continuousBoundary
      rw [if_neg hcont]
      by_cases hprac : s1.mode = "practice" ∧ 0 < s1.maxChunks ∧
          (s1.text.length : ℤ) ≤ s1.position
      · rw [if_pos hprac]
        have hlock := hpre1.lockstep
        have hposle := hpre1.pos_le
        have huncg := hpre1.unc_ge
        have hmist := hpre1.mist_nonneg
        have htm := hpre1.totalMist_nonneg
        have htc := hpre1.totalChars_nonneg
        have hback := hpre1.back_nonneg
        have hcorr := hpre1.corr_nonneg
        have hcidx := hpre1.chunkIndex_ge
        by_cases hgm : s1.isGroupMode = true
        · rw [if_pos hgm]
          try dsimp only
          by_cases hdone : s1.maxChunks ≤ s1.totalChunks + s1.currentPageChunks
          · rw [if_pos hdone]
            refine ⟨?_, ?_, ?_, ?_, ?_, ?_, ?_, ?_, ?_, ?_, ?_⟩ <;>
              dsimp only <;>
              first
                | omega
                | (intro _ hfalse; simp at hfalse)
                | exact hpre1.chunks_ok
          · rw [if_neg hdone]
            have hI2 : Inv (regenChunk env
                { s1 with totalChars := s1.totalChars + s1.userInput.length,
                          totalMistakes := s1.totalMistakes + s1.mistakes,
                          totalChunks := s1.totalChunks + s1.currentPageChunks,
                          currentPageChunks :=
                            min s1.pageSize (s1.maxChunks -
                              (s1.totalChunks + s1.currentPageChunks)) }) := by
              apply regen_inv env henv <;> (try dsimp only) <;>
                first
                  | omega
                  | exact hpre1.chunks_ok
            rw [lateBoundaries_skip _ _ (regen_pos_lt env henv _)]
            exact hI2
        · rw [if_neg hgm]
          try dsimp only
          by_cases hdone : s1.maxChunks ≤ s1.totalChunks + 1
          · rw [if_pos hdone]
            refine ⟨?_, ?_, ?_, ?_, ?_, ?_, ?_, ?_, ?_, ?_, ?_⟩ <;>
              dsimp only <;>
              first
                | omega
                | (intro _ hfalse; simp at hfalse)
                | exact hpre1.chunks_ok
          · rw [if_neg hdone]
            have hI2 : Inv (regenChunk env
                { s1 with totalChunks := s1.totalChunks + 1,
                          totalChars := s1.totalChars + s1.userInput.length,
                          totalMistakes := s1.totalMistakes + s1.mistakes }) := by
              apply regen_inv env henv <;> (try dsimp only) <;>
                first
                  | omega
                  | exact hpre1.chunks_ok
            rw [lateBoundaries_skip _ _ (regen_pos_lt env henv _)]
            exact hI2
      · rw [if_neg hprac]
        apply lateBoundaries_inv e s1 hpre1 hrun1' hcomp1'
        intro hge
        constructor <;> intro hm
        · exact hcont ⟨Or.inl hm, hge⟩
        · exact hcont ⟨Or.inr (Or.inl hm), hge⟩

/-- A timer tick preserves the session invariant. -/
theorem updateTimer_inv (e : ℤ) (s : Session) (hs : Inv s) :
    Inv (updateTimer e s).1 := by
  have hlock := hs.lockstep
  have hposle := hs.pos_le
  have hunc := hs.unc_ge
  have hmist := hs.mist_nonneg
  have htm := hs.totalMist_nonneg
  have htc := hs.totalChars_nonneg
  have hback := hs.back_nonneg
  have hcorr := hs.corr_nonneg
  have hcidx := hs.chunkIndex_ge
  unfold updateTimer
  by_cases hr : s.running = true
  · rw [if_pos hr]
    dsimp only
    by_cases hexp : 0 < s.timeLimitNs ∧ s.timeLimitNs ≤ e
    · rw [if_pos hexp]
      refine ⟨?_, ?_, ?_, ?_, ?_, ?_, ?_, ?_, ?_, ?_, ?_⟩ <;>
        (try dsimp only) <;>
        first
          | omega
          | (intro _ hfalse; simp at hfalse)
          | exact hs.chunks_ok
    · rw [if_neg hexp]
      refine ⟨?_, ?_, ?_, ?_, ?_, ?_, ?_, ?_, ?_, ?_, ?_⟩ <;>
        (try dsimp only) <;>
        first
          | omega
          | (intro h1 h2; exact hs.pos_lt h1 h2)
          | exact hs.chunks_ok
  · rw [if_neg hr]
    exact hs

/-- One event of any kind preserves the session invariant. -/
theorem step_inv (env : Env) (henv : EnvOK env) (s : Session) (hs : Inv s)
    (e : Event) : Inv (step env s e) := by
  cases e with
  | key k elapsedNs => exact handleInput_inv env henv elapsedNs s hs k
  | tick elapsedNs => exact updateTimer_inv elapsedNs s hs

/-- Every event trace preserves the session invariant. -/
theorem run_inv (env : Env) (henv : EnvOK env) (s : Session) (hs : Inv s)
    (es : List Event) : Inv (run env s es) := by
  induction es generalizing s with
  | nil => exact hs
  | cons e es ih =>
    rw [run, List.foldl_cons]
    exact ih (step env s e) (step_inv env henv s hs e)

/-- **C3** (witness): inserting the concrete short record among one valid
record leaves the normalized average unchanged and bumps the outlier count. -/
theorem C3_validity_filter_witness :
    ¬ (15000 ≤ invalidRec.DurationMs ∧ 60 ≤ invalidRec.TextLength) ∧
    (calculateStatistics 0 ([] ++ invalidRec :: [validRec 50])).NormalizedAvgWPM =
      (calculateStatistics 0 ([] ++ [validRec 50])).NormalizedAvgWPM ∧
    (calculateStatistics 0 ([] ++ invalidRec :: [validRec 50])).OutlierCount =
      (calculateStatistics 0 ([] ++ [validRec 50])).OutlierCount + 1 := by
  have hr : ¬ (15000 ≤ invalidRec.DurationMs ∧ 60 ≤ invalidRec.TextLength) := by
    decide
  have h := C3_validity_filter 0 [] [validRec 50] invalidRec hr
  obtain ⟨_, _, _, h4, _, _, _, _, _, _, _, _, _, _, _, _, h17, _⟩ := h
  exact ⟨hr, h4, h17⟩

/-- The fresh words session satisfies the session invariant. -/
theorem sampleWords_inv : Inv sampleWordsSession := by
  refine ⟨?_, ?_, ?_, ?_, ?_, ?_, ?_, ?_, ?_, ?_, ?_⟩ <;>
    first
      | decide
      | (intro c hc; simp [sampleWordsSession] at hc)

/-- The one-mistyped-character session satisfies the session invariant. -/
theorem sampleBk_inv : Inv sampleBackspaceSession := by
  refine ⟨?_, ?_, ?_, ?_, ?_, ?_, ?_, ?_, ?_, ?_, ?_⟩ <;>
    first
      | decide
      | (intro c hc; simp [sampleBackspaceSession] at hc)

/-- The constant text oracle never hands out an empty chunk. -/
theorem sampleEnv_ok : EnvOK sampleEnv := fun i => by simp [sampleEnv]

/-- The live accuracy never exceeds 100 when the mistake total is
non-negative. -/
theorem calcAccuracy_le_100 (s : Session) (hm : 0 ≤ s.totalMistakes + s.mistakes)
    (hc : 0 ≤ s.totalChars) : s.calculateAccuracy ≤ 100 := by
  unfold Session.calculateAccuracy
  dsimp only
  split
  · norm_num
  · rename_i hne
    have hcl : (0:ℤ) < s.totalChars + (s.userInput.length : ℤ) := by omega
    have hQ : (0:ℚ) < ((s.totalChars + (s.userInput.length : ℤ) : ℤ) : ℚ) := by
      exact_mod_cast hcl
    have hle : ((s.totalChars + (s.userInput.length : ℤ) -
        (s.totalMistakes + s.mistakes) : ℤ) : ℚ) ≤
        ((s.totalChars + (s.userInput.length : ℤ) : ℤ) : ℚ) := by
      have h1 : s.totalChars + (s.userInput.length : ℤ) -
          (s.totalMistakes + s.mistakes) ≤
          s.totalChars + (s.userInput.length : ℤ) := by omega
      exact_mod_cast h1
    linarith [(div_le_one hQ).mpr hle]

/-- The live accuracy is exactly 100 on an empty character total. -/
theorem calcAccuracy_zero (s : Session)
    (h : s.totalChars + (s.userInput.length : ℤ) = 0) :
    s.calculateAccuracy = 100 := by
  unfold Session.calculateAccuracy
  dsimp only
  rw [if_pos h]

/-- On a positive character total the live accuracy is the ratio formula. -/
theorem calcAccuracy_pos (s : Session)
    (h : ¬ s.totalChars + (s.userInput.length : ℤ) = 0) :
    s.calculateAccuracy =
      ((s.totalChars + (s.userInput.length : ℤ) -
        (s.totalMistakes + s.mistakes) : ℤ) : ℚ) /
      ((s.totalChars + (s.userInput.length : ℤ) : ℤ) : ℚ) * 100 := by
  unfold Session.calculateAccuracy
  dsimp only
  rw [if_neg h]

/-- **C6**: on every session state reachable from an invariant-satisfying
start by keystroke and tick events, the computed accuracy is at most 100,
equals 100 exactly when the effective character total
(`totalChars + len(userInput)`) is zero, and otherwise equals
`(chars − mistakes) / chars · 100` over the session totals plus the
in-flight chunk. (The spec's lower bound 0 is refuted separately: the
in-flight mistake counter can exceed the remaining in-flight characters.) -/
theorem C6_accuracy (env : Env) (henv : EnvOK env) (s0 : Session) (h0 : Inv s0)
    (es : List Event) :
    (run env s0 es).calculateAccuracy ≤ 100 ∧
    ((run env s0 es).totalChars + (((run env s0 es).userInput.length : ℤ)) = 0 →
      (run env s0 es).calculateAccuracy = 100) ∧
    (¬ (run env s0 es).totalChars + (((run env s0 es).userInput.length : ℤ)) = 0 →
      (run env s0 es).calculateAccuracy =
        (((run env s0 es).totalChars + (((run env s0 es).userInput.length : ℤ)) -
          ((run env s0 es).totalMistakes + (run env s0 es).mistakes) : ℤ) : ℚ) /
        (((run env s0 es).totalChars +
          (((run env s0 es).userInput.length : ℤ)) : ℤ) : ℚ) * 100) := by
  have hI := run_inv env henv s0 h0 es
  have hm : 0 ≤ (run env s0 es).totalMistakes + (run env s0 es).mistakes := by
    have h1 := hI.totalMist_nonneg
    have h2 := hI.mist_nonneg
    omega
  exact ⟨calcAccuracy_le_100 _ hm hI.totalChars_nonneg,
    fun h => calcAccuracy_zero _ h, fun h => calcAccuracy_pos _ h⟩

/-- **C6** (witness): the amended accuracy bounds hold on a concrete mixed
trace from the fresh words session. -/
theorem C6_accuracy_witness :
    EnvOK sampleEnv ∧ Inv sampleWordsSession ∧
    (run sampleEnv sampleWordsSession sampleTrace).calculateAccuracy ≤ 100 := by
  exact ⟨sampleEnv_ok, sampleWords_inv,
    (C6_accuracy sampleEnv sampleEnv_ok sampleWordsSession sampleWords_inv
      sampleTrace).1⟩

/-- **C6** (counterexample): accuracy is not bounded below by 0 on reachable
states — mistyping twice, erasing twice and then typing the right character
leaves one in-flight character against two counted mistakes, and the
computed accuracy is −100. -/
theorem C6_accuracy_counterexample :
    (run sampleEnv sampleWordsSession mistypedTrace).calculateAccuracy < 0 := by
  have h1 : (run sampleEnv sampleWordsSession mistypedTrace).totalChars = 0 := by
    decide
  have h2 : (run sampleEnv sampleWordsSession mistypedTrace).userInput = ['a'] := by
    decide
  have h3 : (run sampleEnv sampleWordsSession mistypedTrace).totalMistakes = 0 := by
    decide
  have h4 : (run sampleEnv sampleWordsSession mistypedTrace).mistakes = 2 := by
    decide
  simp only [Session.calculateAccuracy, h1, h2, h3, h4, List.length_cons,
    List.length_nil]
  norm_num

/-- **C7**: on a running, uncompleted session satisfying the invariant, a
backspace keystroke is a no-op when the cursor is at 0; otherwise it drops
the last input character, decrements the cursor, increments the backspace
counter, and repairs the error bookkeeping (correctedErrors + 1,
uncorrectedErrors − 1) exactly when the removed character missed its target
character. -/
theorem C7_backspace (env : Env) (e : ℤ) (s : Session) (hs : Inv s)
    (hrun : s.running = true) (hcomp : s.completed = false) :
    (s.position = 0 → handleInput env e s .backspace = s) ∧
    (0 < s.position →
      (handleInput env e s .backspace).userInput = s.userInput.dropLast ∧
      (handleInput env e s .backspace).position = s.position - 1 ∧
      (handleInput env e s .backspace).backspaceCount = s.backspaceCount + 1 ∧
      (s.userInput.getLastD ' ' ≠ s.text.getD (s.position - 1).toNat ' ' →
        (handleInput env e s .backspace).correctedErrors =
          s.correctedErrors + 1 ∧
        (handleInput env e s .backspace).uncorrectedErrors =
          s.uncorrectedErrors - 1) ∧
      (s.userInput.getLastD ' ' = s.text.getD (s.position - 1).toNat ' ' →
        (handleInput env e s .backspace).correctedErrors = s.correctedErrors ∧
        (handleInput env e s .backspace).uncorrectedErrors =
          s.uncorrectedErrors)) := by
  have hlt : s.position < (s.text.length : ℤ) := hs.pos_lt hrun hcomp
  have hlock := hs.lockstep
  have hkey : handleInput env e s .backspace = applyKey s .backspace := by
    unfold handleInput
    rw [if_neg (by simp [hrun, hcomp])]
    dsimp only
    have hple : (applyKey s .backspace).position ≤ s.position := by
      unfold applyKey
      dsimp only
      repeat' split
      all_goals ((try dsimp only); omega)
    have htext : (applyKey s .backspace).text = s.text := by
      unfold applyKey
      dsimp only
      repeat' split
      all_goals rfl
    have hlt' : (applyKey s .backspace).position <
        (((applyKey s .backspace).text.length : ℤ)) := by
      rw [htext]
      omega
    rw [continuousBoundary_skip env _ hlt']
    rw [if_neg (fun hc => absurd hc.2.2 (by omega))]
    exact lateBoundaries_skip e _ hlt'
  refine ⟨?_, ?_⟩
  · intro h0
    have hempty : s.userInput = [] := by
      have hl0 : s.userInput.length = 0 := by omega
      exact List.length_eq_zero.mp hl0
    rw [hkey]
    unfold applyKey
    dsimp only
    rw [if_neg (by simp [hempty])]
  · intro hpos
    have hne : 0 < s.userInput.length := by omega
    rw [hkey]
    unfold applyKey
    dsimp only
    rw [if_pos hne, if_pos hpos]
    by_cases hm : s.userInput.getLastD ' ' = s.text.getD (s.position - 1).toNat ' '
    · rw [if_neg (not_not_intro hm)]
      exact ⟨rfl, rfl, rfl, fun h => absurd hm h, fun h => ⟨rfl, rfl⟩⟩
    · rw [if_pos hm]
      exact ⟨rfl, rfl, rfl, fun h => ⟨rfl, rfl⟩, fun h => absurd h hm⟩

/-- **C7** (witness): erasing the concrete mistyped character drops it,
moves the cursor back, and repairs the error counters. -/
theorem C7_backspace_witness :
    Inv sampleBackspaceSession ∧ sampleBackspaceSession.running = true ∧
    sampleBackspaceSession.completed = false ∧
    0 < sampleBackspaceSession.position ∧
    (handleInput sampleEnv 0 sampleBackspaceSession .backspace).userInput = [] ∧
    (handleInput sampleEnv 0 sampleBackspaceSession .backspace).position = 0 ∧
    (handleInput sampleEnv 0 sampleBackspaceSession .backspace).backspaceCount
      = 1 ∧
    (handleInput sampleEnv 0 sampleBackspaceSession .backspace).correctedErrors
      = 1 ∧
    (handleInput sampleEnv 0 sampleBackspaceSession .backspace).uncorrectedErrors
      = 0 := by
  have hpos : (0:ℤ) < sampleBackspaceSession.position := by decide
  have h := (C7_backspace sampleEnv 0 sampleBackspaceSession sampleBk_inv rfl
    rfl).2 hpos
  obtain ⟨hu, hp, hb, hmm, _⟩ := h
  have hneq : sampleBackspaceSession.userInput.getLastD ' ' ≠
      sampleBackspaceSession.text.getD
        (sampleBackspaceSession.position - 1).toNat ' ' := by decide
  obtain ⟨hc, hunc⟩ := hmm hneq
  exact ⟨sampleBk_inv, rfl, rfl, hpos, hu.trans (by decide), hp.trans (by decide),
    hb.trans (by decide), hc.trans (by decide), hunc.trans (by decide)⟩

/-- **C8**: from any invariant-satisfying start, after any sequence of
keystroke and timer events the cursor satisfies
`0 ≤ position ≤ len(text)` — across chunk regeneration, chunk advancement
and completion in every mode. -/
theorem C8_position_bounds (env : Env) (henv : EnvOK env) (s0 : Session)
    (h0 : Inv s0) (es : List Event) :
    0 ≤ (run env s0 es).position ∧
      (run env s0 es).position ≤ (((run env s0 es).text.length : ℤ)) := by
  have h := run_inv env henv s0 h0 es
  have hl := h.lockstep
  exact ⟨by omega, h.pos_le⟩

/-- **C8** (witness): the cursor bounds hold after a concrete mixed trace
from the fresh words session. -/
theorem C8_position_bounds_witness :
    EnvOK sampleEnv ∧ Inv sampleWordsSession ∧
    (0 ≤ (run sampleEnv sampleWordsSession sampleTrace).position ∧
      (run sampleEnv sampleWordsSession sampleTrace).position ≤
        (((run sampleEnv sampleWordsSession sampleTrace).text.length : ℤ))) :=
  ⟨sampleEnv_ok, sampleWords_inv,
    C8_position_bounds sampleEnv sampleEnv_ok sampleWordsSession
      sampleWords_inv sampleTrace⟩

/-- **C9**: from any invariant-satisfying start, after any sequence of
keystroke and timer events the counters `backspaceCount`, `correctedErrors`
and `uncorrectedErrors` are non-negative: each backspace decrement of
`uncorrectedErrors` answers an earlier mismatch that incremented it, so the
NetWPM penalty base never goes negative. -/
theorem C9_counters_nonneg (env : Env) (henv : EnvOK env) (s0 : Session)
    (h0 : Inv s0) (es : List Event) :
    0 ≤ (run env s0 es).backspaceCount ∧
    0 ≤ (run env s0 es).correctedErrors ∧
    0 ≤ (run env s0 es).uncorrectedErrors := by
  have h := run_inv env henv s0 h0 es
  refine ⟨h.back_nonneg, h.corr_nonneg, ?_⟩
  have hu := h.unc_ge
  omega

/-- **C9** (witness): the counters are non-negative after the concrete
erase-heavy trace from the fresh words session. -/
theorem C9_counters_nonneg_witness :
    EnvOK sampleEnv ∧ Inv sampleWordsSession ∧
    (0 ≤ (run sampleEnv sampleWordsSession mistypedTrace).backspaceCount ∧
     0 ≤ (run sampleEnv sampleWordsSession mistypedTrace).correctedErrors ∧
     0 ≤ (run sampleEnv sampleWordsSession mistypedTrace).uncorrectedErrors) :=
  ⟨sampleEnv_ok, sampleWords_inv,
    C9_counters_nonneg sampleEnv sampleEnv_ok sampleWordsSession
      sampleWords_inv mistypedTrace⟩

end GTI
